import Mathlib

/-!
Shallow embedding of the dtype-optimization transform
`convert_and_optimize_to_numerics` from `src/python/datasets.py` (duplicated
verbatim in `src/python/modeling_focused.py`), together with the naive policy
variant that the specification describes.

Modelling conventions:
* a dataframe cell is `Option Val`; `none` models a pandas missing value
  (`None`, `NaN`, `pd.NA`).  `convert_dtypes` normalises every missing marker
  to `pd.NA`, so a distinct NaN value is not represented;
* binary floating-point payloads are modelled exactly as rationals (every
  finite float is a rational), with integer/float/bool/string kind tags kept
  separate, mirroring the dtype system that the pandas calls dispatch on;
* each pandas library call the source relies on (`convert_dtypes`,
  `astype(int)`, `astype('category').cat.codes`, `to_numeric` with its
  `downcast` ladder) is embedded as an explicit Lean function reproducing the
  library's documented behaviour on the dtypes this program feeds it.
-/

namespace DtypeOpt

/-- Scalar value held in a dataframe cell. -/
inductive Val where
  | i (n : ℤ)
  | f (q : ℚ)
  | b (x : Bool)
  | s (t : String)
deriving DecidableEq, Repr

/-- A cell is a present value or a missing marker. -/
abbrev Cell := Option Val

/-- Signed integer widths of the numpy downcast ladder. -/
inductive IW where
  | w8 | w16 | w32 | w64
deriving DecidableEq, Repr

/-- Floating-point widths of the numpy downcast ladder. -/
inductive FW where
  | f16 | f32 | f64
deriving DecidableEq, Repr

/-- Column dtypes distinguishable by `select_dtypes` in this program. -/
inductive Dtype where
  | intD (w : IW)
  | floatD (w : FW)
  | boolD
  | strD
  | catD
  | objD
deriving DecidableEq, Repr

/-- A column: a dtype together with its cells. -/
structure Col where
  dtype : Dtype
  cells : List Cell
deriving DecidableEq, Repr

/-- A dataframe: named columns in order. -/
abbrev Df := List (String × Col)

/-- The one runtime error this pipeline can raise: `astype(int)` on a
nullable boolean column containing `pd.NA`. -/
inductive Err where
  | cannotConvertNAToInt
deriving DecidableEq, Repr

def Val.isI : Val → Bool
  | .i _ => true
  | _ => false

def Val.isF : Val → Bool
  | .f _ => true
  | _ => false

def Val.isB : Val → Bool
  | .b _ => true
  | _ => false

def Val.isS : Val → Bool
  | .s _ => true
  | _ => false

def Val.isNum : Val → Bool
  | .i _ => true
  | .f _ => true
  | _ => false

/-- Numeric reading of a value (booleans read as 0/1, as `astype(int)` does;
strings never reach a numeric context in this pipeline). -/
def Val.toRat : Val → ℚ
  | .i n => (n : ℚ)
  | .f q => q
  | .b x => if x then 1 else 0
  | .s _ => 0

/-- Does the value have zero fractional part under exact reading? -/
def Val.isIntegral : Val → Bool
  | .i _ => true
  | .f q => q.den == 1
  | _ => false

/-- Present (non-missing) values of a cell list. -/
def present (cells : List Cell) : List Val := cells.filterMap id

def IW.minV : IW → ℤ
  | .w8 => -128
  | .w16 => -32768
  | .w32 => -2147483648
  | .w64 => -9223372036854775808

def IW.maxV : IW → ℤ
  | .w8 => 127
  | .w16 => 32767
  | .w32 => 2147483647
  | .w64 => 9223372036854775807

def IW.size : IW → ℕ
  | .w8 => 1
  | .w16 => 2
  | .w32 => 4
  | .w64 => 8

def FW.size : FW → ℕ
  | .f16 => 2
  | .f32 => 4
  | .f64 => 8

def Dtype.itemsize : Dtype → ℕ
  | .intD w => w.size
  | .floatD w => w.size
  | _ => 8

def Dtype.isNumD : Dtype → Bool
  | .intD _ => true
  | .floatD _ => true
  | _ => false

/-- Do all present values fit in the range of integer width `w`? -/
def fitsIW (w : IW) (cells : List Cell) : Bool :=
  (present cells).all fun v =>
    decide ((w.minV : ℚ) ≤ v.toRat) && decide (v.toRat ≤ (w.maxV : ℚ))

/-- Are all present values exactly integral? -/
def allIntegral (cells : List Cell) : Bool :=
  (present cells).all Val.isIntegral

/-- Can the column be converted to a 64-bit integer representation without
changing any present value? -/
def intConvertible (cells : List Cell) : Bool :=
  allIntegral cells && fitsIW .w64 cells

/-- Cast a cell to an integer cell (numpy `astype` truncation; applied by the
source only where every present value is integral, or to 0/1 booleans). -/
def toIntCell : Cell → Cell
  | none => none
  | some v => some (.i v.toRat.num)

/-- Cast a cell to a floating-point cell. -/
def toFloatCell : Cell → Cell
  | none => none
  | some v => some (.f v.toRat)

/-- Nullable-kind inference of `convert_dtypes` on an object column: value
evidence only, conservative on mixtures (pandas `infer_objects` plus the
integer/boolean/string conversions of `convert_dtypes`). -/
def inferKind (cells : List Cell) : Dtype :=
  if (present cells).isEmpty then .objD
  else if (present cells).all Val.isB then .boolD
  else if (present cells).all Val.isI then
    (if intConvertible cells then .intD .w64 else .objD)
  else if (present cells).all Val.isNum then
    (if intConvertible cells then .intD .w64 else .floatD .f64)
  else if (present cells).all Val.isS then .strD
  else .objD

/-- Retag cells according to the inferred kind. -/
def retagCells (k : Dtype) (cells : List Cell) : List Cell :=
  match k with
  | .intD _ => cells.map toIntCell
  | .floatD _ => cells.map toFloatCell
  | _ => cells

/-- Model of `DataFrame.convert_dtypes` on one column: object columns get the
inferred nullable kind; float columns whose present values are all exactly
integral (and fit) become `Int64`, as documented for `convert_dtypes`; other
dtypes keep their width and become their nullable counterpart (widths are
unchanged, so this is the identity in this model). -/
def convert_dtypes (c : Col) : Col :=
  match c.dtype with
  | .objD => ⟨inferKind c.cells, retagCells (inferKind c.cells) c.cells⟩
  | .floatD _ =>
    if intConvertible c.cells then ⟨.intD .w64, c.cells.map toIntCell⟩ else c
  | _ => c

/-- Model of `Series.astype(int)` on a nullable boolean column: raises when a
missing value is present (numpy int64 cannot hold `pd.NA`), otherwise maps
`true`/`false` to 1/0 in a (non-nullable) 64-bit integer column. -/
def astype_int (c : Col) : Except Err Col :=
  if c.cells.any Option.isNone then .error .cannotConvertNAToInt
  else .ok ⟨.intD .w64, c.cells.map toIntCell⟩

/-- Lexicographic comparison of character lists by code point (the order
Python string sorting uses). -/
def charsLt : List Char → List Char → Bool
  | _, [] => false
  | [], _ :: _ => true
  | a :: as, b :: bs =>
    if a < b then true else if b < a then false else charsLt as bs

/-- Lexicographic string comparison by code point. -/
def strLt (a b : String) : Bool := charsLt a.data b.data

/-- Insert a string into a strictly sorted list, skipping duplicates. -/
def catInsert (t : String) : List String → List String
  | [] => [t]
  | u :: us =>
    if t = u then u :: us
    else if strLt t u then t :: u :: us
    else u :: catInsert t us

/-- Sorted distinct present strings of a column: the categories built by
`astype('category')` (pandas sorts the unique values lexically). -/
def categoriesOf (cells : List Cell) : List String :=
  ((present cells).filterMap fun v =>
    match v with
    | .s t => some t
    | _ => none).foldr catInsert []

/-- Width that pandas stores categorical codes in, by category count. -/
def coerceIW (k : ℕ) : IW :=
  if k < 127 then .w8
  else if k < 32767 then .w16
  else if k < 2147483647 then .w32
  else .w64

/-- Code of one cell: position of its string among the sorted categories;
missing values get the reserved sentinel -1. -/
def catCode (cats : List String) : Cell → Cell
  | none => some (.i (-1))
  | some (.s t) => some (.i (cats.indexOf t : ℕ))
  | some v => some v

/-- Model of `Series.astype('category').cat.codes` on a string column. -/
def cat_codes (c : Col) : Col :=
  ⟨.intD (coerceIW (categoriesOf c.cells).length),
    c.cells.map (catCode (categoriesOf c.cells))⟩

/-- Model of `pd.to_numeric(series)` with default arguments on a column that
is already numeric: the values are returned unchanged and `errors="raise"`
cannot fire, so this is the identity. -/
def to_numeric (c : Col) : Col := c

/-- First integer width of the numpy "Integer" ladder (int8, int16, int32,
int64, in that order) whose itemsize does not exceed the current itemsize and
whose range holds every present value — the loop `to_numeric` runs for
`downcast="integer"`, unrolled over the four widths. -/
def tryWidths (c : Col) : Option IW :=
  if decide (IW.size .w8 ≤ c.dtype.itemsize) && fitsIW .w8 c.cells then some .w8
  else if decide (IW.size .w16 ≤ c.dtype.itemsize) && fitsIW .w16 c.cells then some .w16
  else if decide (IW.size .w32 ≤ c.dtype.itemsize) && fitsIW .w32 c.cells then some .w32
  else if decide (IW.size .w64 ≤ c.dtype.itemsize) && fitsIW .w64 c.cells then some .w64
  else none

/-- Model of `pd.to_numeric(series, downcast="integer")` on a numeric column:
downcast to the narrowest signed integer width only when every present value
is reproduced exactly (numpy truncation equality check per candidate width);
otherwise return the column unchanged. -/
def toNumericInteger (c : Col) : Col :=
  if allIntegral c.cells then
    match tryWidths c with
    | some w => ⟨.intD w, c.cells.map toIntCell⟩
    | none => c
  else c

/-- Round a nonnegative remainder to the nearest integer, ties to even. -/
def roundHalfEven (x : ℚ) : ℤ :=
  let n := ⌊x⌋
  if x - n < 1 / 2 then n
  else if 1 / 2 < x - n then n + 1
  else if n % 2 = 0 then n else n + 1

/-- Round-to-nearest-even into a binary floating-point format with `prec`
significand bits and maximum exponent `emax`; `none` models overflow to
infinity. -/
def roundBin (prec : ℕ) (emax : ℤ) (q : ℚ) : Option ℚ :=
  if q = 0 then some 0
  else
    let e : ℤ := Int.log 2 |q|
    let g : ℤ := max (e - prec + 1) (1 - emax - prec + 1)
    let m : ℤ := roundHalfEven (|q| * (2 : ℚ) ^ (-g))
    let r : ℚ := (m : ℚ) * (2 : ℚ) ^ g
    if (2 : ℚ) ^ (emax + 1) ≤ r then none
    else some (if q < 0 then -r else r)

/-- One candidate width of the float downcast ladder: cast every present
value into the format; accept when every rounded value is within `atol` of
the original (`np.allclose` with `rtol=0`, the tolerance pandas uses). -/
def floatCandidate (prec : ℕ) (emax : ℤ) (w : FW) (atol : ℚ) (c : Col) :
    Option Col :=
  match c.cells.mapM (fun cell =>
      match cell with
      | none => some none
      | some v => (roundBin prec emax v.toRat).map fun r => some (Val.f r)) with
  | none => none
  | some cs =>
    if (cs.zip c.cells).all (fun p =>
        match p.1, p.2 with
        | some u, some v => decide (|u.toRat - v.toRat| ≤ atol)
        | _, _ => true)
    then some ⟨.floatD w, cs⟩ else none

/-- Model of `pd.to_numeric(series, downcast="float")`: try float16 then
float32 (the widths below 8 bytes on the numpy "Float" ladder that pandas
supports), keeping the column unchanged when no candidate is accepted. -/
def toNumericFloat (c : Col) : Col :=
  match (if 2 ≤ c.dtype.itemsize then floatCandidate 11 15 .f16 0 c
         else none) with
  | some c16 => c16
  | none =>
    match (if 4 ≤ c.dtype.itemsize then floatCandidate 24 127 .f32 (5 / 10000) c
           else none) with
    | some c32 => c32
    | none => c

/-- Numeric comparison of two aligned cells: a pair with a missing side
compares as `NA`, which `.all()` with its default `skipna=True` skips. -/
def cellEqNum : Cell → Cell → Bool
  | some u, some v => decide (u.toRat = v.toRat)
  | _, _ => true

/-- Elementwise equality of two aligned numeric series followed by `.all()`
with its default `skipna=True`. -/
def seriesEqAll (a b : Col) : Bool :=
  (a.cells.zip b.cells).all fun p => cellEqNum p.1 p.2

/-- The inner helper `to_numeric_downcast` of the source: try the integer
downcast; if the comparison with the plain numeric conversion reports no
change, keep it, otherwise fall back to the float downcast.  The source also
guards the integer attempt with `except ValueError`, which cannot fire on an
already numeric column and is therefore not represented. -/
def to_numeric_downcast (c : Col) : Col :=
  if seriesEqAll (toNumericInteger c) (to_numeric c) then toNumericInteger c
  else toNumericFloat c

/-- The boolean and string conversion loops of the source, read per column:
boolean columns go through `astype(int)`, string columns through
`astype('category').cat.codes`, every other dtype is untouched. -/
def stage2 (c : Col) : Except Err Col :=
  match c.dtype with
  | .boolD => astype_int c
  | .strD => .ok (cat_codes c)
  | _ => .ok c

/-- The numeric downcast assignment of the source, read per column: applied
exactly to the columns `select_dtypes(include='number')` selects. -/
def stage3 (c : Col) : Col :=
  if c.dtype.isNumD then to_numeric_downcast c else c

/-- The whole per-column pipeline of `convert_and_optimize_to_numerics`: the
loops of the source act columnwise and independently, so the function is the
per-column composition first `convert_dtypes`, then the boolean/string
conversions, then the numeric downcast, then the final `convert_dtypes`. -/
def optimize_column (c : Col) : Except Err Col :=
  match stage2 (convert_dtypes c) with
  | .error e => .error e
  | .ok c2 => .ok (convert_dtypes (stage3 c2))

/-- `convert_and_optimize_to_numerics` on a dataframe value. -/
def optimizeDf : Df → Except Err Df
  | [] => .ok []
  | (n, c) :: rest =>
    match optimize_column c, optimizeDf rest with
    | .ok c2, .ok rest2 => .ok ((n, c2) :: rest2)
    | .error e, _ => .error e
    | .ok _, .error e => .error e

/-- The public argument type of the source function: a bare 1-D array, a
series, or a dataframe. -/
inductive PdInput where
  | arr (dtype : Dtype) (cells : List Cell)
  | series (name : String) (col : Col)
  | frame (df : Df)

/-- The input normalisation at the top of the source: `DataFrame(ndarray)`
names the single column "0", `Series.to_frame()` keeps the series name. -/
def PdInput.toFrame : PdInput → Df
  | .arr d cells => [("0", ⟨d, cells⟩)]
  | .series n c => [(n, c)]
  | .frame df => df

/-- The source function `convert_and_optimize_to_numerics`. -/
def convert_and_optimize_to_numerics (x : PdInput) : Except Err Df :=
  optimizeDf x.toFrame

/-- Cells consistent with the column dtype (a numpy/pandas array stores one
kind of payload). -/
def wfCol (c : Col) : Bool :=
  match c.dtype with
  | .intD _ => c.cells.all fun x => x.all Val.isI
  | .floatD _ => c.cells.all fun x => x.all Val.isF
  | .boolD => c.cells.all fun x => x.all Val.isB
  | .strD => c.cells.all fun x => x.all Val.isS
  | .catD => c.cells.all fun x => x.all Val.isS
  | .objD => true

/-- All columns share one row count. -/
def sameLen : Df → Bool
  | [] => true
  | p :: ps => ps.all fun q => q.2.cells.length == p.2.cells.length

/-- Well-formed tabular input: per-column payload consistency plus a shared
row count. -/
def wfDf (df : Df) : Bool :=
  df.all (fun p => wfCol p.2) && sameLen df

/-- Model of `df.copy(deep=True)`: the value copied into a fresh object. -/
def copyDeep (df : Df) : Df := df

def convertDtypesDf (df : Df) : Df :=
  df.map fun p => (p.1, convert_dtypes p.2)

/-- The boolean conversion loop at dataframe level: it raises as soon as one
boolean column holds a missing value, otherwise rewrites exactly the boolean
columns in place. -/
def boolLoopDf (df : Df) : Except Err Df :=
  if df.any (fun p => p.2.dtype == .boolD && p.2.cells.any Option.isNone) then
    .error .cannotConvertNAToInt
  else
    .ok (df.map fun p =>
      if p.2.dtype == .boolD then (p.1, ⟨.intD .w64, p.2.cells.map toIntCell⟩)
      else p)

def stringLoopDf (df : Df) : Df :=
  df.map fun p => if p.2.dtype == .strD then (p.1, cat_codes p.2) else p

def numericAssignDf (df : Df) : Df :=
  df.map fun p =>
    if p.2.dtype.isNumD then (p.1, to_numeric_downcast p.2) else p

def heapGet (h : List Df) (r : ℕ) : Df := (h[r]?).getD []

/-- The source function with Python object identity made explicit: the heap
is a list of dataframe objects addressed by index.  `df.copy(deep=True)` and
each `convert_dtypes` call allocate fresh objects; the column-assignment
loops mutate the copy in place (`List.set`); the input object at `r` is
never written. -/
def optimizeOnHeap (h : List Df) (r : ℕ) : Except Err (List Df × ℕ) :=
  let h1 := h ++ [copyDeep (heapGet h r)]
  let r1 := h.length
  let h2 := h1 ++ [convertDtypesDf (heapGet h1 r1)]
  let r2 := h1.length
  match boolLoopDf (heapGet h2 r2) with
  | .error e => .error e
  | .ok d2 =>
    let h3 := h2.set r2 d2
    let h4 := h3.set r2 (stringLoopDf (heapGet h3 r2))
    let h5 := h4.set r2 (numericAssignDf (heapGet h4 r2))
    .ok (h5 ++ [convertDtypesDf (heapGet h5 r2)], h5.length)

/-- Modelled from the spec: the width rule of the naive policy's float
downcast ("narrowest floating-point width sufficient to hold the observed
value range without overflow"); the naive variant's source file is not under
`src/`. -/
def naiveFW (cells : List Cell) : FW :=
  if (present cells).all (fun v => decide (|v.toRat| < (2 : ℚ) ^ (128 : ℕ)))
  then .f32 else .f64

/-- Modelled from the spec: one column of the naive policy variant
(`naive_dtype_optimize` / `naive_downcast`), whose source file is not under
`src/`.  Numeric columns are always downcast to the narrowest floating-point
width only (never to an integer width); string columns become a
category-labelled column whose original labels are retained rather than
replaced by integer codes; other columns pass through after the nullable
kind inference. -/
def naive_column (c : Col) : Col :=
  match (convert_dtypes c).dtype with
  | .intD _ =>
    ⟨.floatD (naiveFW (convert_dtypes c).cells),
      (convert_dtypes c).cells.map toFloatCell⟩
  | .floatD _ =>
    ⟨.floatD (naiveFW (convert_dtypes c).cells),
      (convert_dtypes c).cells.map toFloatCell⟩
  | .strD => ⟨.catD, (convert_dtypes c).cells⟩
  | _ => convert_dtypes c

/-- Modelled from the spec: the naive policy variant applied to a dataframe,
columnwise like the full policy. -/
def naive_dtype_optimize (df : Df) : Df :=
  df.map fun p => (p.1, naive_column p.2)

instance {ε α : Type} [DecidableEq ε] [DecidableEq α] :
    DecidableEq (Except ε α) := fun x y =>
  match x, y with
  | .ok a, .ok b =>
    if h : a = b then .isTrue (by rw [h]) else .isFalse (by simp [h])
  | .error e, .error e' =>
    if h : e = e' then .isTrue (by rw [h]) else .isFalse (by simp [h])
  | .ok _, .error _ => .isFalse (by simp)
  | .error _, .ok _ => .isFalse (by simp)

/-! Basic facts about `present` and the cell casts. -/

theorem present_nil : present [] = [] := rfl

theorem present_cons_none (t : List Cell) : present (none :: t) = present t := rfl

theorem present_cons_some (v : Val) (t : List Cell) :
    present (some v :: t) = v :: present t := rfl

theorem present_map_toIntCell (cells : List Cell) :
    present (cells.map toIntCell) = (present cells).map fun v => Val.i v.toRat.num := by
  induction cells with
  | nil => rfl
  | cons x t ih =>
    cases x with
    | none => simpa [toIntCell, present_cons_none] using ih
    | some v => simpa [toIntCell, present_cons_some] using congrArg (Val.i v.toRat.num :: ·) ih

theorem present_map_toFloatCell (cells : List Cell) :
    present (cells.map toFloatCell) = (present cells).map fun v => Val.f v.toRat := by
  induction cells with
  | nil => rfl
  | cons x t ih =>
    cases x with
    | none => simpa [toFloatCell, present_cons_none] using ih
    | some v => simpa [toFloatCell, present_cons_some] using congrArg (Val.f v.toRat :: ·) ih

/-- A rational with denominator one is its own numerator. -/
theorem den_one_cast {q : ℚ} (h : q.den = 1) : (q.num : ℚ) = q := by
  conv_rhs => rw [← Rat.num_div_den q, h]
  simp

/-- Integral values are reproduced exactly by the integer cast. -/
theorem toRat_num_of_integral {v : Val} (h : v.isIntegral = true) :
    ((v.toRat.num : ℚ)) = v.toRat := by
  cases v with
  | i n => simp [Val.toRat]
  | f q =>
    have hq : q.den = 1 := by simpa [Val.isIntegral] using h
    simpa [Val.toRat] using den_one_cast hq
  | b x => simp [Val.isIntegral] at h
  | s t => simp [Val.isIntegral] at h

theorem toIntCell_toRat (v : Val) : (Val.i v.toRat.num).toRat = (v.toRat.num : ℚ) := rfl

theorem toIntCell_idem (x : Cell) : toIntCell (toIntCell x) = toIntCell x := by
  cases x with
  | none => rfl
  | some v => simp [toIntCell, Val.toRat]

theorem andE_left {a b : Bool} (h : (a && b) = true) : a = true := by
  cases a
  · simp at h
  · rfl

theorem andE_right {a b : Bool} (h : (a && b) = true) : b = true := by
  cases b
  · simp at h
  · rfl

theorem bool_eq_false {b : Bool} (h : ¬(b = true)) : b = false := by
  cases b
  · rfl
  · exact absurd rfl h

theorem allB_congr {α : Type} {l : List α} {p q : α → Bool}
    (h : ∀ a ∈ l, p a = q a) : l.all p = l.all q := by
  induction l with
  | nil => rfl
  | cons x t ih =>
    simp only [List.all_cons, h x (by simp),
      ih fun a ha => h a (List.mem_cons_of_mem x ha)]

theorem map_toIntCell_idem (cells : List Cell) :
    (cells.map toIntCell).map toIntCell = cells.map toIntCell := by
  simp only [List.map_map]
  exact List.map_congr_left fun x _ => toIntCell_idem x

theorem toFloatCell_idem (x : Cell) : toFloatCell (toFloatCell x) = toFloatCell x := by
  cases x with
  | none => rfl
  | some v => rfl

theorem map_toFloatCell_idem (cells : List Cell) :
    (cells.map toFloatCell).map toFloatCell = cells.map toFloatCell := by
  simp only [List.map_map]
  exact List.map_congr_left fun x _ => toFloatCell_idem x

/-- Membership formulation of `allIntegral`. -/
theorem allIntegral_iff (cells : List Cell) :
    allIntegral cells = true ↔ ∀ v ∈ present cells, v.isIntegral = true := by
  simp [allIntegral, List.all_eq_true]

theorem allIntegral_map_toIntCell (cells : List Cell) :
    allIntegral (cells.map toIntCell) = true := by
  rw [allIntegral_iff, present_map_toIntCell]
  intro v hv
  simp only [List.mem_map] at hv
  obtain ⟨u, _, rfl⟩ := hv
  rfl

/-- `fitsIW` only looks at the numeric readings, which the float cast keeps. -/
theorem fitsIW_map_toFloatCell (w : IW) (cells : List Cell) :
    fitsIW w (cells.map toFloatCell) = fitsIW w cells := by
  simp only [fitsIW, present_map_toFloatCell, List.all_map]
  rfl

/-- On integral cells the integer cast keeps the numeric readings, hence
range fit. -/
theorem fitsIW_map_toIntCell (w : IW) (cells : List Cell)
    (h : allIntegral cells = true) :
    fitsIW w (cells.map toIntCell) = fitsIW w cells := by
  rw [allIntegral_iff] at h
  simp only [fitsIW, present_map_toIntCell, List.all_map]
  apply allB_congr
  intro v hv
  simp only [Function.comp_apply, toIntCell_toRat, toRat_num_of_integral (h v hv)]

theorem allIntegral_map_toFloatCell (cells : List Cell)
    (h : (present cells).all Val.isNum = true) :
    allIntegral (cells.map toFloatCell) = allIntegral cells := by
  simp only [allIntegral, present_map_toFloatCell, List.all_map]
  apply allB_congr
  intro v hv
  have hv' := (List.all_eq_true.mp h) v hv
  cases v with
  | i n => simp [Val.isIntegral, Val.toRat]
  | f q => simp [Val.isIntegral, Val.toRat]
  | b x => simp [Val.isNum] at hv'
  | s t => simp [Val.isNum] at hv'

theorem intConvertible_map_toFloatCell (cells : List Cell)
    (h : (present cells).all Val.isNum = true) :
    intConvertible (cells.map toFloatCell) = intConvertible cells := by
  rw [intConvertible, intConvertible, allIntegral_map_toFloatCell cells h,
    fitsIW_map_toFloatCell]

/-! The comparison inside `to_numeric_downcast` always reports equality, so
the helper always returns its integer-downcast attempt. -/

theorem cellEqNum_refl (x : Cell) : cellEqNum x x = true := by
  cases x with
  | none => rfl
  | some v => simp [cellEqNum]

theorem zip_self_eqAll (cells : List Cell) :
    ((cells.zip cells).all fun p => cellEqNum p.1 p.2) = true := by
  induction cells with
  | nil => rfl
  | cons x t ih => simp [List.zip_cons_cons, cellEqNum_refl, ih]

theorem seriesEqAll_refl (a b : Col) (h : a.cells = b.cells) :
    seriesEqAll a b = true := by
  rw [seriesEqAll, h]
  exact zip_self_eqAll b.cells

theorem zip_map_toIntCell_eqAll (cells : List Cell)
    (h : ∀ v ∈ present cells, v.isIntegral = true) :
    (((cells.map toIntCell).zip cells).all fun p => cellEqNum p.1 p.2) = true := by
  induction cells with
  | nil => rfl
  | cons x t ih =>
    cases x with
    | none =>
      simp only [List.map_cons, toIntCell, List.zip_cons_cons, List.all_cons]
      exact ih fun v hv => h v (by simpa [present_cons_none] using hv)
    | some v =>
      have hv : v.isIntegral = true := h v (by simp [present_cons_some])
      simp only [List.map_cons, toIntCell, List.zip_cons_cons, List.all_cons,
        Bool.and_eq_true]
      constructor
      · simp [cellEqNum, toIntCell_toRat, toRat_num_of_integral hv]
      · exact ih fun u hu => h u (by simp [present_cons_some, hu])

/-- The equality check of `to_numeric_downcast` always passes, so the float
fallback of the helper is unreachable: the column reaching it is already
numeric and the integer attempt never changes a present value. -/
theorem to_numeric_downcast_eq_integer (c : Col) :
    to_numeric_downcast c = toNumericInteger c := by
  rw [to_numeric_downcast, if_pos]
  rw [toNumericInteger]
  by_cases hint : allIntegral c.cells
  · rw [if_pos hint]
    cases hw : tryWidths c with
    | none => exact seriesEqAll_refl _ _ rfl
    | some w =>
      show seriesEqAll ⟨.intD w, c.cells.map toIntCell⟩ (to_numeric c) = true
      rw [seriesEqAll]
      exact zip_map_toIntCell_eqAll c.cells ((allIntegral_iff c.cells).mp hint)
  · rw [if_neg hint]
    exact seriesEqAll_refl _ _ rfl

/-! Classification facts about `inferKind` and idempotence of
`convert_dtypes`. -/

theorem inferKind_eq_floatD {cells : List Cell} {w : FW}
    (h : inferKind cells = .floatD w) :
    w = .f64 ∧ (present cells).all Val.isNum = true ∧
      intConvertible cells = false := by
  unfold inferKind at h
  split_ifs at h with h1 h2 h3 h4 h5 h6 h7
  all_goals try simp at h
  exact ⟨h.symm, h5, by simpa using h6⟩

theorem inferKind_ne_catD (cells : List Cell) : inferKind cells ≠ .catD := by
  unfold inferKind
  split_ifs <;> simp

theorem inferKind_eq_strD {cells : List Cell}
    (h : inferKind cells = .strD) : (present cells).all Val.isS = true := by
  unfold inferKind at h
  split_ifs at h with h1 h2 h3 h4 h5 h6 h7
  all_goals try simp at h
  exact h7

theorem convert_dtypes_intD (w : IW) (cells : List Cell) :
    convert_dtypes ⟨.intD w, cells⟩ = ⟨.intD w, cells⟩ := rfl

theorem convert_dtypes_objD (cells : List Cell) :
    convert_dtypes ⟨.objD, cells⟩ =
      ⟨inferKind cells, retagCells (inferKind cells) cells⟩ := rfl

theorem convert_dtypes_floatD_pos {w : FW} {cells : List Cell}
    (h : intConvertible cells = true) :
    convert_dtypes ⟨.floatD w, cells⟩ = ⟨.intD .w64, cells.map toIntCell⟩ := by
  simp [convert_dtypes, h]

theorem convert_dtypes_floatD_neg {w : FW} {cells : List Cell}
    (h : intConvertible cells = false) :
    convert_dtypes ⟨.floatD w, cells⟩ = ⟨.floatD w, cells⟩ := by
  simp [convert_dtypes, h]

theorem convert_dtypes_idem (c : Col) :
    convert_dtypes (convert_dtypes c) = convert_dtypes c := by
  obtain ⟨d, cells⟩ := c
  cases d with
  | intD w => rfl
  | boolD => rfl
  | strD => rfl
  | catD => rfl
  | floatD w =>
    by_cases hic : intConvertible cells
    · rw [convert_dtypes_floatD_pos hic, convert_dtypes_intD]
    · rw [convert_dtypes_floatD_neg (by simpa using hic),
        convert_dtypes_floatD_neg (by simpa using hic)]
  | objD =>
    rw [convert_dtypes_objD]
    rcases hk : inferKind cells with w | w | _ | _ | _ | _
    · rfl
    · obtain ⟨hw, hnum, hic⟩ := inferKind_eq_floatD hk
      simp only [retagCells]
      exact convert_dtypes_floatD_neg
        (by rw [intConvertible_map_toFloatCell cells hnum]; exact hic)
    · rfl
    · rfl
    · exact absurd hk (inferKind_ne_catD cells)
    · simp only [retagCells]
      rw [convert_dtypes_objD, hk]
      rfl

/-- A column classified as string by `convert_dtypes` keeps its cells
unchanged through that call. -/
theorem convert_dtypes_strD_cells {c : Col}
    (h : (convert_dtypes c).dtype = .strD) :
    (convert_dtypes c).cells = c.cells := by
  obtain ⟨d, cells⟩ := c
  cases d with
  | intD w => rfl
  | boolD => rfl
  | strD => rfl
  | catD => rfl
  | floatD w =>
    by_cases hic : intConvertible cells
    · rw [convert_dtypes_floatD_pos hic] at h
      simp at h
    · rw [convert_dtypes_floatD_neg (by simpa using hic)] at h
      simp at h
  | objD =>
    rw [convert_dtypes_objD] at h ⊢
    have hk : inferKind cells = .strD := h
    rw [hk]
    rfl

/-! The downcast width ladder: specification of `tryWidths` and the
fixed-point lemmas behind idempotence. -/

theorem itemsize_pos (d : Dtype) : 1 ≤ d.itemsize := by
  cases d with
  | intD w => cases w <;> decide
  | floatD w => cases w <;> decide
  | boolD => decide
  | strD => decide
  | catD => decide
  | objD => decide

/-- From a failed ladder step whose itemsize condition holds, extract the
range failure. -/
theorem fits_false_of_step {b : Prop} [Decidable b] {f : Bool}
    (h : ¬((decide b && f) = true)) (hb : b) : f = false := by
  cases hf : f with
  | false => rfl
  | true => exact absurd (by rw [decide_eq_true hb, hf]; rfl) h

theorem tryWidths_spec {c : Col} {w : IW} (h : tryWidths c = some w) :
    fitsIW w c.cells = true ∧ w.size ≤ c.dtype.itemsize ∧
      ∀ u : IW, u.size < w.size → fitsIW u c.cells = false := by
  rw [tryWidths] at h
  split_ifs at h with f8 f16 f32 f64
  · obtain rfl : IW.w8 = w := by injection h
    refine ⟨andE_right f8, of_decide_eq_true (andE_left f8), ?_⟩
    intro u hu
    cases u <;> simp [IW.size] at hu
  · obtain rfl : IW.w16 = w := by injection h
    have hcap : IW.size .w16 ≤ c.dtype.itemsize :=
      of_decide_eq_true (andE_left f16)
    have h8 : fitsIW .w8 c.cells = false :=
      fits_false_of_step f8 (itemsize_pos c.dtype)
    refine ⟨andE_right f16, hcap, ?_⟩
    intro u hu
    cases u <;> simp [IW.size] at hu ⊢ <;> exact h8
  · obtain rfl : IW.w32 = w := by injection h
    have hcap : IW.size .w32 ≤ c.dtype.itemsize :=
      of_decide_eq_true (andE_left f32)
    have h8 : fitsIW .w8 c.cells = false :=
      fits_false_of_step f8 (itemsize_pos c.dtype)
    have h16 : fitsIW .w16 c.cells = false := by
      apply fits_false_of_step f16
      have h4 : (4 : ℕ) ≤ c.dtype.itemsize := hcap
      show (2 : ℕ) ≤ c.dtype.itemsize
      omega
    refine ⟨andE_right f32, hcap, ?_⟩
    intro u hu
    cases u <;> simp [IW.size] at hu ⊢ <;> first | exact h8 | exact h16
  · obtain rfl : IW.w64 = w := by injection h
    have hcap : IW.size .w64 ≤ c.dtype.itemsize :=
      of_decide_eq_true (andE_left f64)
    have h8 : fitsIW .w8 c.cells = false :=
      fits_false_of_step f8 (itemsize_pos c.dtype)
    have h16 : fitsIW .w16 c.cells = false := by
      apply fits_false_of_step f16
      have h4 : (8 : ℕ) ≤ c.dtype.itemsize := hcap
      show (2 : ℕ) ≤ c.dtype.itemsize
      omega
    have h32 : fitsIW .w32 c.cells = false := by
      apply fits_false_of_step f32
      have h4 : (8 : ℕ) ≤ c.dtype.itemsize := hcap
      show (4 : ℕ) ≤ c.dtype.itemsize
      omega
    refine ⟨andE_right f64, hcap, ?_⟩
    intro u hu
    cases u <;> simp [IW.size] at hu ⊢ <;>
      first | exact h8 | exact h16 | exact h32

theorem tryWidths_intro {d : Dtype} {cells : List Cell} {w : IW}
    (hfits : fitsIW w cells = true) (hcap : w.size ≤ d.itemsize)
    (hmin : ∀ u : IW, u.size < w.size → fitsIW u cells = false) :
    tryWidths ⟨d, cells⟩ = some w := by
  have hd : (⟨d, cells⟩ : Col).dtype = d := rfl
  have hds : (⟨d, cells⟩ : Col).cells = cells := rfl
  cases w with
  | w8 =>
    rw [tryWidths, hd, hds, if_pos]
    rw [hfits, decide_eq_true (show IW.size .w8 ≤ d.itemsize from itemsize_pos d)]
    rfl
  | w16 =>
    have h8 : fitsIW .w8 cells = false := hmin .w8 (by decide)
    rw [tryWidths, hd, hds, if_neg (by rw [h8, Bool.and_false]; simp), if_pos]
    rw [hfits, decide_eq_true hcap]
    rfl
  | w32 =>
    have h8 : fitsIW .w8 cells = false := hmin .w8 (by decide)
    have h16 : fitsIW .w16 cells = false := hmin .w16 (by decide)
    rw [tryWidths, hd, hds, if_neg (by rw [h8, Bool.and_false]; simp),
      if_neg (by rw [h16, Bool.and_false]; simp), if_pos]
    rw [hfits, decide_eq_true hcap]
    rfl
  | w64 =>
    have h8 : fitsIW .w8 cells = false := hmin .w8 (by decide)
    have h16 : fitsIW .w16 cells = false := hmin .w16 (by decide)
    have h32 : fitsIW .w32 cells = false := hmin .w32 (by decide)
    rw [tryWidths, hd, hds, if_neg (by rw [h8, Bool.and_false]; simp),
      if_neg (by rw [h16, Bool.and_false]; simp),
      if_neg (by rw [h32, Bool.and_false]; simp), if_pos]
    rw [hfits, decide_eq_true hcap]
    rfl

theorem toNumericInteger_pos {c : Col} {w : IW}
    (hint : allIntegral c.cells = true) (hw : tryWidths c = some w) :
    toNumericInteger c = ⟨.intD w, c.cells.map toIntCell⟩ := by
  rw [toNumericInteger, if_pos hint, hw]

theorem toNumericInteger_none {c : Col} (hw : tryWidths c = none) :
    toNumericInteger c = c := by
  rw [toNumericInteger]
  split_ifs with hint
  · rw [hw]
  · rfl

theorem toNumericInteger_not_integral {c : Col}
    (hint : allIntegral c.cells = false) : toNumericInteger c = c := by
  rw [toNumericInteger, if_neg (by simp [hint])]

/-! Characterisations of the pipeline stages by the classified dtype. -/

theorem stage2_not_bool_str {c : Col} (hb : c.dtype ≠ .boolD)
    (hs : c.dtype ≠ .strD) : stage2 c = .ok c := by
  obtain ⟨d, cells⟩ := c
  cases d with
  | boolD => exact absurd rfl hb
  | strD => exact absurd rfl hs
  | intD w => rfl
  | floatD w => rfl
  | catD => rfl
  | objD => rfl

theorem stage2_boolD {c : Col} (hd : c.dtype = .boolD) :
    stage2 c = astype_int c := by
  obtain ⟨d, cells⟩ := c
  have : d = .boolD := hd
  subst this
  rfl

theorem stage2_strD {c : Col} (hd : c.dtype = .strD) :
    stage2 c = .ok (cat_codes c) := by
  obtain ⟨d, cells⟩ := c
  have : d = .strD := hd
  subst this
  rfl

theorem stage3_num {c : Col} (hnum : c.dtype.isNumD = true) :
    stage3 c = to_numeric_downcast c := by
  rw [stage3, if_pos hnum]

theorem stage3_not_num {c : Col} (hnum : c.dtype.isNumD = false) :
    stage3 c = c := by
  rw [stage3, if_neg (by simp [hnum])]

theorem astype_int_ok {c : Col} (hna : c.cells.any Option.isNone = false) :
    astype_int c = .ok ⟨.intD .w64, c.cells.map toIntCell⟩ := by
  rw [astype_int, if_neg (by simp [hna])]

theorem astype_int_err {c : Col} (hna : c.cells.any Option.isNone = true) :
    astype_int c = .error .cannotConvertNAToInt := by
  rw [astype_int, if_pos hna]

theorem stage3_intD (w : IW) (cells : List Cell) :
    stage3 ⟨.intD w, cells⟩ = to_numeric_downcast ⟨.intD w, cells⟩ := rfl

theorem optimize_column_ok_of {c c2 : Col}
    (h2 : stage2 (convert_dtypes c) = .ok c2) :
    optimize_column c = .ok (convert_dtypes (stage3 c2)) := by
  rw [optimize_column, h2]

theorem optimize_column_err_of {c : Col} {e : Err}
    (h2 : stage2 (convert_dtypes c) = .error e) :
    optimize_column c = .error e := by
  rw [optimize_column, h2]

/-- Fixed point: a column the downcast stage produced, with its cells in
integer form and its width the first fitting one, is left unchanged by a
second run of the whole per-column pipeline. -/
theorem fix_intD {w : IW} {X : List Cell}
    (hw : tryWidths ⟨.intD w, X.map toIntCell⟩ = some w) :
    optimize_column ⟨.intD w, X.map toIntCell⟩ =
      .ok ⟨.intD w, X.map toIntCell⟩ := by
  have h2 : stage2 (convert_dtypes ⟨.intD w, X.map toIntCell⟩) =
      .ok ⟨.intD w, X.map toIntCell⟩ := rfl
  rw [optimize_column_ok_of h2, stage3_intD, to_numeric_downcast_eq_integer,
    toNumericInteger_pos (allIntegral_map_toIntCell X) hw]
  rw [map_toIntCell_idem, convert_dtypes_intD]

/-- Fixed point: a numeric column that classification and the downcast leave
unchanged is a fixed point of the whole per-column pipeline. -/
theorem fix_numeric {c : Col} (hnum : c.dtype.isNumD = true)
    (hconv : convert_dtypes c = c) (htni : toNumericInteger c = c) :
    optimize_column c = .ok c := by
  have hb : c.dtype ≠ .boolD := by
    intro hx
    rw [hx] at hnum
    simp [Dtype.isNumD] at hnum
  have hs : c.dtype ≠ .strD := by
    intro hx
    rw [hx] at hnum
    simp [Dtype.isNumD] at hnum
  have h2 : stage2 (convert_dtypes c) = .ok c := by
    rw [hconv]
    exact stage2_not_bool_str hb hs
  rw [optimize_column_ok_of h2, stage3_num hnum,
    to_numeric_downcast_eq_integer, htni, hconv]

/-- Fixed point: a non-numeric, non-boolean, non-string column stable under
classification passes through the whole per-column pipeline. -/
theorem fix_passthrough {c : Col} (hnum : c.dtype.isNumD = false)
    (hb : c.dtype ≠ .boolD) (hs : c.dtype ≠ .strD)
    (hconv : convert_dtypes c = c) :
    optimize_column c = .ok c := by
  have h2 : stage2 (convert_dtypes c) = .ok c := by
    rw [hconv]
    exact stage2_not_bool_str hb hs
  rw [optimize_column_ok_of h2, stage3_not_num hnum, hconv]

/-- The per-column pipeline is idempotent on success. -/
theorem optimize_column_idem {c c' : Col}
    (h : optimize_column c = .ok c') : optimize_column c' = .ok c' := by
  have hconv1 : convert_dtypes (convert_dtypes c) = convert_dtypes c :=
    convert_dtypes_idem c
  cases hd : (convert_dtypes c).dtype with
  | intD w =>
    have hnum : (convert_dtypes c).dtype.isNumD = true := by rw [hd]; rfl
    have h2 : stage2 (convert_dtypes c) = .ok (convert_dtypes c) :=
      stage2_not_bool_str (by rw [hd]; simp) (by rw [hd]; simp)
    rw [optimize_column_ok_of h2, stage3_num hnum,
      to_numeric_downcast_eq_integer] at h
    by_cases hint : allIntegral (convert_dtypes c).cells = true
    · cases hw : tryWidths (convert_dtypes c) with
      | none =>
        rw [toNumericInteger_none hw, hconv1] at h
        cases h
        exact fix_numeric hnum hconv1 (toNumericInteger_none hw)
      | some w' =>
        rw [toNumericInteger_pos hint hw, convert_dtypes_intD] at h
        cases h
        apply fix_intD
        obtain ⟨hfits, hcap, hmin⟩ := tryWidths_spec hw
        apply tryWidths_intro
        · rw [fitsIW_map_toIntCell _ _ hint]
          exact hfits
        · exact le_refl _
        · intro u hu
          rw [fitsIW_map_toIntCell _ _ hint]
          exact hmin u hu
    · have hint' : allIntegral (convert_dtypes c).cells = false := bool_eq_false hint
      rw [toNumericInteger_not_integral hint', hconv1] at h
      cases h
      exact fix_numeric hnum hconv1 (toNumericInteger_not_integral hint')
  | floatD w =>
    have hnum : (convert_dtypes c).dtype.isNumD = true := by rw [hd]; rfl
    have h2 : stage2 (convert_dtypes c) = .ok (convert_dtypes c) :=
      stage2_not_bool_str (by rw [hd]; simp) (by rw [hd]; simp)
    rw [optimize_column_ok_of h2, stage3_num hnum,
      to_numeric_downcast_eq_integer] at h
    by_cases hint : allIntegral (convert_dtypes c).cells = true
    · cases hw : tryWidths (convert_dtypes c) with
      | none =>
        rw [toNumericInteger_none hw, hconv1] at h
        cases h
        exact fix_numeric hnum hconv1 (toNumericInteger_none hw)
      | some w' =>
        rw [toNumericInteger_pos hint hw, convert_dtypes_intD] at h
        cases h
        apply fix_intD
        obtain ⟨hfits, hcap, hmin⟩ := tryWidths_spec hw
        apply tryWidths_intro
        · rw [fitsIW_map_toIntCell _ _ hint]
          exact hfits
        · exact le_refl _
        · intro u hu
          rw [fitsIW_map_toIntCell _ _ hint]
          exact hmin u hu
    · have hint' : allIntegral (convert_dtypes c).cells = false := bool_eq_false hint
      rw [toNumericInteger_not_integral hint', hconv1] at h
      cases h
      exact fix_numeric hnum hconv1 (toNumericInteger_not_integral hint')
  | boolD =>
    have h2 := stage2_boolD hd
    by_cases hna : (convert_dtypes c).cells.any Option.isNone = true
    · have h2e : stage2 (convert_dtypes c) = .error .cannotConvertNAToInt := by
        rw [h2]
        exact astype_int_err hna
      rw [optimize_column_err_of h2e] at h
      exact absurd h (by simp)
    · have h2o : stage2 (convert_dtypes c) =
          .ok ⟨.intD .w64, (convert_dtypes c).cells.map toIntCell⟩ := by
        rw [h2]
        exact astype_int_ok (bool_eq_false hna)
      rw [optimize_column_ok_of h2o, stage3_intD,
        to_numeric_downcast_eq_integer] at h
      cases hw : tryWidths ⟨.intD .w64, (convert_dtypes c).cells.map toIntCell⟩ with
      | none =>
        rw [toNumericInteger_none hw, convert_dtypes_intD] at h
        cases h
        exact fix_numeric rfl (convert_dtypes_intD _ _) (toNumericInteger_none hw)
      | some w' =>
        rw [toNumericInteger_pos (allIntegral_map_toIntCell _) hw] at h
        rw [map_toIntCell_idem, convert_dtypes_intD] at h
        cases h
        apply fix_intD
        obtain ⟨hfits, hcap, hmin⟩ := tryWidths_spec hw
        exact tryWidths_intro hfits (le_refl _) fun u hu => hmin u hu
  | strD =>
    have h2 : stage2 (convert_dtypes c) =
        .ok ⟨.intD (coerceIW (categoriesOf (convert_dtypes c).cells).length),
          (convert_dtypes c).cells.map
            (catCode (categoriesOf (convert_dtypes c).cells))⟩ := by
      rw [stage2_strD hd, cat_codes]
    rw [optimize_column_ok_of h2, stage3_intD,
      to_numeric_downcast_eq_integer] at h
    by_cases hint : allIntegral ((convert_dtypes c).cells.map
        (catCode (categoriesOf (convert_dtypes c).cells))) = true
    · cases hw : tryWidths ⟨.intD (coerceIW (categoriesOf (convert_dtypes c).cells).length),
          (convert_dtypes c).cells.map
            (catCode (categoriesOf (convert_dtypes c).cells))⟩ with
      | none =>
        rw [toNumericInteger_none hw, convert_dtypes_intD] at h
        cases h
        exact fix_numeric rfl (convert_dtypes_intD _ _) (toNumericInteger_none hw)
      | some w' =>
        rw [toNumericInteger_pos hint hw, convert_dtypes_intD] at h
        cases h
        apply fix_intD
        obtain ⟨hfits, hcap, hmin⟩ := tryWidths_spec hw
        apply tryWidths_intro
        · rw [fitsIW_map_toIntCell _ _ hint]
          exact hfits
        · exact le_refl _
        · intro u hu
          rw [fitsIW_map_toIntCell _ _ hint]
          exact hmin u hu
    · have hint' : allIntegral ((convert_dtypes c).cells.map
          (catCode (categoriesOf (convert_dtypes c).cells))) = false :=
        bool_eq_false hint
      rw [toNumericInteger_not_integral hint', convert_dtypes_intD] at h
      cases h
      exact fix_numeric rfl (convert_dtypes_intD _ _)
        (toNumericInteger_not_integral hint')
  | catD =>
    have h2 : stage2 (convert_dtypes c) = .ok (convert_dtypes c) :=
      stage2_not_bool_str (by rw [hd]; simp) (by rw [hd]; simp)
    rw [optimize_column_ok_of h2, stage3_not_num (by rw [hd]; rfl), hconv1] at h
    cases h
    exact fix_passthrough (by rw [hd]; rfl) (by rw [hd]; simp)
      (by rw [hd]; simp) hconv1
  | objD =>
    have h2 : stage2 (convert_dtypes c) = .ok (convert_dtypes c) :=
      stage2_not_bool_str (by rw [hd]; simp) (by rw [hd]; simp)
    rw [optimize_column_ok_of h2, stage3_not_num (by rw [hd]; rfl), hconv1] at h
    cases h
    exact fix_passthrough (by rw [hd]; rfl) (by rw [hd]; simp)
      (by rw [hd]; simp) hconv1

/-! Dataframe-level plumbing. -/

theorem optimizeDf_cons_ok {n : String} {c : Col} {rest df' : Df}
    (h : optimizeDf ((n, c) :: rest) = .ok df') :
    ∃ c2 rest2, optimize_column c = .ok c2 ∧ optimizeDf rest = .ok rest2 ∧
      df' = (n, c2) :: rest2 := by
  rw [optimizeDf] at h
  cases hoc : optimize_column c with
  | error e =>
    rw [hoc] at h
    exact absurd h (by simp)
  | ok c2 =>
    rw [hoc] at h
    cases hor : optimizeDf rest with
    | error e =>
      rw [hor] at h
      exact absurd h (by simp)
    | ok rest2 =>
      rw [hor] at h
      refine ⟨c2, rest2, rfl, rfl, ?_⟩
      injection h with h'
      exact h'.symm

theorem optimizeDf_idem_aux : ∀ {df df' : Df},
    optimizeDf df = .ok df' → optimizeDf df' = .ok df' := by
  intro df
  induction df with
  | nil =>
    intro df' h
    have he : ([] : Df) = df' := by injection h
    rw [← he]
    rfl
  | cons p rest ih =>
    intro df' h
    obtain ⟨n, c⟩ := p
    obtain ⟨c2, rest2, hoc, hor, rfl⟩ := optimizeDf_cons_ok h
    rw [optimizeDf, optimize_column_idem hoc, ih hor]

/-! Idempotence of the spec-modelled naive policy. -/

theorem present_mem {X : List Cell} {v : Val} (h : some v ∈ X) :
    v ∈ present X :=
  List.mem_filterMap.mpr ⟨some v, h, rfl⟩

theorem map_toFloat_toInt (X : List Cell) (h : allIntegral X = true) :
    (X.map toIntCell).map toFloatCell = X.map toFloatCell := by
  rw [List.map_map]
  apply List.map_congr_left
  intro x hx
  cases x with
  | none => rfl
  | some v =>
    have hv : v.isIntegral = true :=
      (allIntegral_iff X).mp h v (present_mem hx)
    simp only [Function.comp_apply, toIntCell, toFloatCell, Option.map]
    rw [toIntCell_toRat, toRat_num_of_integral hv]

theorem naiveFW_map_toFloatCell (X : List Cell) :
    naiveFW (X.map toFloatCell) = naiveFW X := by
  rw [naiveFW, naiveFW, present_map_toFloatCell, List.all_map]
  rfl

theorem naiveFW_map_toIntCell (X : List Cell) (h : allIntegral X = true) :
    naiveFW (X.map toIntCell) = naiveFW X := by
  rw [naiveFW, naiveFW, present_map_toIntCell, List.all_map]
  have hc : ((present X).all fun v =>
      decide (|Val.toRat (Val.i v.toRat.num)| < (2 : ℚ) ^ (128 : ℕ))) =
      (present X).all fun v => decide (|v.toRat| < (2 : ℚ) ^ (128 : ℕ)) := by
    apply allB_congr
    intro v hv
    rw [toIntCell_toRat, toRat_num_of_integral ((allIntegral_iff X).mp h v hv)]
  rw [← hc]
  rfl

theorem naive_float_fix (X : List Cell) :
    naive_column ⟨.floatD (naiveFW X), X.map toFloatCell⟩ =
      ⟨.floatD (naiveFW X), X.map toFloatCell⟩ := by
  by_cases hic : intConvertible (X.map toFloatCell) = true
  · have hint : allIntegral (X.map toFloatCell) = true :=
      andE_left hic
    have hcd := @convert_dtypes_floatD_pos (naiveFW X) (X.map toFloatCell) hic
    simp only [naive_column, hcd]
    rw [naiveFW_map_toIntCell _ hint, naiveFW_map_toFloatCell,
      map_toFloat_toInt _ hint, map_toFloatCell_idem]
  · have hcd := @convert_dtypes_floatD_neg (naiveFW X) (X.map toFloatCell)
      (by simpa using hic)
    simp only [naive_column, hcd]
    rw [naiveFW_map_toFloatCell, map_toFloatCell_idem]

theorem naive_column_idem (c : Col) :
    naive_column (naive_column c) = naive_column c := by
  rcases hd : (convert_dtypes c).dtype with w | w | _ | _ | _ | _
  case intD =>
    have h1 : naive_column c = ⟨.floatD (naiveFW (convert_dtypes c).cells),
        (convert_dtypes c).cells.map toFloatCell⟩ := by
      simp only [naive_column, hd]
    rw [h1]
    exact naive_float_fix _
  case floatD =>
    have h1 : naive_column c = ⟨.floatD (naiveFW (convert_dtypes c).cells),
        (convert_dtypes c).cells.map toFloatCell⟩ := by
      simp only [naive_column, hd]
    rw [h1]
    exact naive_float_fix _
  case strD =>
    have h1 : naive_column c = ⟨.catD, (convert_dtypes c).cells⟩ := by
      simp only [naive_column, hd]
    rw [h1]
    rfl
  case boolD =>
    have h1 : naive_column c = convert_dtypes c := by
      simp only [naive_column, hd]
    rw [h1]
    simp only [naive_column, convert_dtypes_idem, hd]
  case catD =>
    have h1 : naive_column c = convert_dtypes c := by
      simp only [naive_column, hd]
    rw [h1]
    simp only [naive_column, convert_dtypes_idem, hd]
  case objD =>
    have h1 : naive_column c = convert_dtypes c := by
      simp only [naive_column, hd]
    rw [h1]
    simp only [naive_column, convert_dtypes_idem, hd]

theorem naive_dtype_optimize_idem (df : Df) :
    naive_dtype_optimize (naive_dtype_optimize df) = naive_dtype_optimize df := by
  rw [naive_dtype_optimize, naive_dtype_optimize, List.map_map]
  apply List.map_congr_left
  intro p _
  simp only [Function.comp_apply, naive_column_idem]

/-! Null masks: which positions hold a missing value. -/

theorem isNone_toIntCell (x : Cell) : (toIntCell x).isNone = x.isNone := by
  cases x <;> rfl

theorem isNone_toFloatCell (x : Cell) : (toFloatCell x).isNone = x.isNone := by
  cases x <;> rfl

theorem mask_map_toIntCell (X : List Cell) :
    (X.map toIntCell).map Option.isNone = X.map Option.isNone := by
  rw [List.map_map]
  exact List.map_congr_left fun x _ => isNone_toIntCell x

theorem mask_map_toFloatCell (X : List Cell) :
    (X.map toFloatCell).map Option.isNone = X.map Option.isNone := by
  rw [List.map_map]
  exact List.map_congr_left fun x _ => isNone_toFloatCell x

theorem mask_retagCells (k : Dtype) (X : List Cell) :
    (retagCells k X).map Option.isNone = X.map Option.isNone := by
  cases k with
  | intD w => exact mask_map_toIntCell X
  | floatD w => exact mask_map_toFloatCell X
  | boolD => rfl
  | strD => rfl
  | catD => rfl
  | objD => rfl

theorem mask_convert_dtypes (c : Col) :
    (convert_dtypes c).cells.map Option.isNone = c.cells.map Option.isNone := by
  obtain ⟨d, cells⟩ := c
  cases d with
  | objD => exact mask_retagCells _ _
  | floatD w =>
    by_cases hic : intConvertible cells = true
    · rw [convert_dtypes_floatD_pos hic]
      exact mask_map_toIntCell cells
    · rw [convert_dtypes_floatD_neg (bool_eq_false hic)]
  | intD w => rfl
  | boolD => rfl
  | strD => rfl
  | catD => rfl

theorem mask_toNumericInteger (c : Col) :
    (toNumericInteger c).cells.map Option.isNone = c.cells.map Option.isNone := by
  by_cases hint : allIntegral c.cells = true
  · cases hw : tryWidths c with
    | some w =>
      rw [toNumericInteger_pos hint hw]
      exact mask_map_toIntCell c.cells
    | none => rw [toNumericInteger_none hw]
  · rw [toNumericInteger_not_integral (bool_eq_false hint)]

theorem mask_stage3 (c : Col) :
    (stage3 c).cells.map Option.isNone = c.cells.map Option.isNone := by
  rw [stage3]
  split_ifs with hnum
  · rw [to_numeric_downcast_eq_integer]
    exact mask_toNumericInteger c
  · rfl

/-- Null positions are preserved by the full pipeline on every column that
classification does not send to the categorical-coding branch. -/
theorem optimize_column_mask_notstr {c c' : Col}
    (hd : (convert_dtypes c).dtype ≠ .strD)
    (h : optimize_column c = .ok c') :
    c'.cells.map Option.isNone = c.cells.map Option.isNone := by
  cases hdt : (convert_dtypes c).dtype with
  | strD => exact absurd hdt hd
  | boolD =>
    have h2 := stage2_boolD hdt
    by_cases hna : (convert_dtypes c).cells.any Option.isNone = true
    · have h2e : stage2 (convert_dtypes c) = .error .cannotConvertNAToInt := by
        rw [h2]
        exact astype_int_err hna
      rw [optimize_column_err_of h2e] at h
      exact absurd h (by simp)
    · have h2o : stage2 (convert_dtypes c) =
          .ok ⟨.intD .w64, (convert_dtypes c).cells.map toIntCell⟩ := by
        rw [h2]
        exact astype_int_ok (bool_eq_false hna)
      rw [optimize_column_ok_of h2o] at h
      cases h
      calc (convert_dtypes (stage3 ⟨.intD .w64,
            (convert_dtypes c).cells.map toIntCell⟩)).cells.map Option.isNone
          = (stage3 ⟨.intD .w64,
              (convert_dtypes c).cells.map toIntCell⟩).cells.map Option.isNone :=
            mask_convert_dtypes _
        _ = ((convert_dtypes c).cells.map toIntCell).map Option.isNone :=
            mask_stage3 _
        _ = (convert_dtypes c).cells.map Option.isNone := mask_map_toIntCell _
        _ = c.cells.map Option.isNone := mask_convert_dtypes c
  | intD w =>
    have h2 : stage2 (convert_dtypes c) = .ok (convert_dtypes c) :=
      stage2_not_bool_str (by rw [hdt]; simp) (by rw [hdt]; simp)
    rw [optimize_column_ok_of h2] at h
    cases h
    calc (convert_dtypes (stage3 (convert_dtypes c))).cells.map Option.isNone
        = (stage3 (convert_dtypes c)).cells.map Option.isNone :=
          mask_convert_dtypes _
      _ = (convert_dtypes c).cells.map Option.isNone := mask_stage3 _
      _ = c.cells.map Option.isNone := mask_convert_dtypes c
  | floatD w =>
    have h2 : stage2 (convert_dtypes c) = .ok (convert_dtypes c) :=
      stage2_not_bool_str (by rw [hdt]; simp) (by rw [hdt]; simp)
    rw [optimize_column_ok_of h2] at h
    cases h
    calc (convert_dtypes (stage3 (convert_dtypes c))).cells.map Option.isNone
        = (stage3 (convert_dtypes c)).cells.map Option.isNone :=
          mask_convert_dtypes _
      _ = (convert_dtypes c).cells.map Option.isNone := mask_stage3 _
      _ = c.cells.map Option.isNone := mask_convert_dtypes c
  | catD =>
    have h2 : stage2 (convert_dtypes c) = .ok (convert_dtypes c) :=
      stage2_not_bool_str (by rw [hdt]; simp) (by rw [hdt]; simp)
    rw [optimize_column_ok_of h2] at h
    cases h
    calc (convert_dtypes (stage3 (convert_dtypes c))).cells.map Option.isNone
        = (stage3 (convert_dtypes c)).cells.map Option.isNone :=
          mask_convert_dtypes _
      _ = (convert_dtypes c).cells.map Option.isNone := mask_stage3 _
      _ = c.cells.map Option.isNone := mask_convert_dtypes c
  | objD =>
    have h2 : stage2 (convert_dtypes c) = .ok (convert_dtypes c) :=
      stage2_not_bool_str (by rw [hdt]; simp) (by rw [hdt]; simp)
    rw [optimize_column_ok_of h2] at h
    cases h
    calc (convert_dtypes (stage3 (convert_dtypes c))).cells.map Option.isNone
        = (stage3 (convert_dtypes c)).cells.map Option.isNone :=
          mask_convert_dtypes _
      _ = (convert_dtypes c).cells.map Option.isNone := mask_stage3 _
      _ = c.cells.map Option.isNone := mask_convert_dtypes c

/-! The categorical-coding branch: output shape and code facts. -/

/-- On a string-classified column the pipeline returns the categorical codes,
possibly re-narrowed by the integer downcast, under an integer dtype. -/
theorem optimize_column_strD {c c' : Col}
    (hd : (convert_dtypes c).dtype = .strD)
    (h : optimize_column c = .ok c') :
    (c'.cells = c.cells.map (catCode (categoriesOf c.cells)) ∨
      c'.cells = (c.cells.map (catCode (categoriesOf c.cells))).map toIntCell) ∧
      ∃ w, c'.dtype = .intD w := by
  have hcells := convert_dtypes_strD_cells hd
  have h2 : stage2 (convert_dtypes c) =
      .ok ⟨.intD (coerceIW (categoriesOf c.cells).length),
        c.cells.map (catCode (categoriesOf c.cells))⟩ := by
    rw [stage2_strD hd, cat_codes, hcells]
  rw [optimize_column_ok_of h2, stage3_intD,
    to_numeric_downcast_eq_integer] at h
  by_cases hint : allIntegral (c.cells.map (catCode (categoriesOf c.cells))) = true
  · cases hw : tryWidths ⟨.intD (coerceIW (categoriesOf c.cells).length),
        c.cells.map (catCode (categoriesOf c.cells))⟩ with
    | none =>
      rw [toNumericInteger_none hw, convert_dtypes_intD] at h
      cases h
      exact ⟨Or.inl rfl, _, rfl⟩
    | some w' =>
      rw [toNumericInteger_pos hint hw, convert_dtypes_intD] at h
      cases h
      exact ⟨Or.inr rfl, _, rfl⟩
  · rw [toNumericInteger_not_integral (bool_eq_false hint),
      convert_dtypes_intD] at h
    cases h
    exact ⟨Or.inl rfl, _, rfl⟩

theorem catCode_isSome (cats : List String) (x : Cell) :
    (catCode cats x).isSome = true := by
  cases x with
  | none => rfl
  | some v => cases v <;> rfl

theorem toIntCell_isSome (x : Cell) : (toIntCell x).isSome = x.isSome := by
  cases x <;> rfl

/-- On a string-classified column the output holds no missing value at all:
every null became the -1 sentinel. -/
theorem optimize_column_str_some {c c' : Col}
    (hd : (convert_dtypes c).dtype = .strD)
    (h : optimize_column c = .ok c') :
    c'.cells.all Option.isSome = true := by
  obtain ⟨hshape, _⟩ := optimize_column_strD hd h
  have hY : (c.cells.map (catCode (categoriesOf c.cells))).all Option.isSome = true := by
    rw [List.all_map, List.all_eq_true]
    intro x _
    exact catCode_isSome _ x
  rcases hshape with hs | hs
  · rw [hs]
    exact hY
  · rw [hs, List.all_map]
    rw [List.all_map, List.all_eq_true] at hY ⊢
    intro x hx
    have := hY x hx
    simpa [Function.comp_apply, toIntCell_isSome] using this

theorem toIntCell_catCode_none (cats : List String) :
    toIntCell (catCode cats none) = some (.i (-1)) := by
  simp [toIntCell, catCode, Val.toRat]

theorem toIntCell_catCode_str (cats : List String) (t : String) :
    toIntCell (catCode cats (some (.s t))) =
      some (.i ((cats.indexOf t : ℕ) : ℤ)) := by
  simp [toIntCell, catCode, Val.toRat]

/-! Numeric value preservation for the full pipeline. -/

theorem numD_ne_boolD {d : Dtype} (h : d.isNumD = true) : d ≠ .boolD := by
  intro hx
  rw [hx] at h
  simp [Dtype.isNumD] at h

theorem numD_ne_strD {d : Dtype} (h : d.isNumD = true) : d ≠ .strD := by
  intro hx
  rw [hx] at h
  simp [Dtype.isNumD] at h

theorem numD_cases {d : Dtype} (h : d.isNumD = true) :
    (∃ w, d = .intD w) ∨ (∃ w, d = .floatD w) := by
  cases d with
  | intD w => exact Or.inl ⟨w, rfl⟩
  | floatD w => exact Or.inr ⟨w, rfl⟩
  | boolD => simp [Dtype.isNumD] at h
  | strD => simp [Dtype.isNumD] at h
  | catD => simp [Dtype.isNumD] at h
  | objD => simp [Dtype.isNumD] at h

theorem convert_dtypes_numD {c : Col} (h : c.dtype.isNumD = true) :
    (convert_dtypes c).dtype.isNumD = true := by
  obtain ⟨d, cells⟩ := c
  cases d with
  | intD w => exact h
  | floatD w =>
    by_cases hic : intConvertible cells = true
    · rw [convert_dtypes_floatD_pos hic]
      rfl
    · rw [convert_dtypes_floatD_neg (bool_eq_false hic)]
      exact h
  | boolD => simp [Dtype.isNumD] at h
  | strD => simp [Dtype.isNumD] at h
  | catD => simp [Dtype.isNumD] at h
  | objD => simp [Dtype.isNumD] at h

theorem tni_numD {c : Col} (h : c.dtype.isNumD = true) :
    (toNumericInteger c).dtype.isNumD = true := by
  by_cases hint : allIntegral c.cells = true
  · cases hw : tryWidths c with
    | some w =>
      rw [toNumericInteger_pos hint hw]
      rfl
    | none =>
      rw [toNumericInteger_none hw]
      exact h
  · rw [toNumericInteger_not_integral (bool_eq_false hint)]
    exact h

theorem ratCells_map_toIntCell (X : List Cell) (h : allIntegral X = true) :
    (X.map toIntCell).map (Option.map Val.toRat) =
      X.map (Option.map Val.toRat) := by
  rw [List.map_map]
  apply List.map_congr_left
  intro x hx
  cases x with
  | none => rfl
  | some v =>
    have hv : v.isIntegral = true :=
      (allIntegral_iff X).mp h v (present_mem hx)
    simp only [Function.comp_apply, toIntCell, Option.map]
    rw [toIntCell_toRat, toRat_num_of_integral hv]

theorem ratCells_convert_dtypes {c : Col} (hnum : c.dtype.isNumD = true) :
    (convert_dtypes c).cells.map (Option.map Val.toRat) =
      c.cells.map (Option.map Val.toRat) := by
  obtain ⟨d, cells⟩ := c
  cases d with
  | intD w => rfl
  | floatD w =>
    by_cases hic : intConvertible cells = true
    · rw [convert_dtypes_floatD_pos hic]
      exact ratCells_map_toIntCell cells (andE_left hic)
    · rw [convert_dtypes_floatD_neg (bool_eq_false hic)]
  | boolD => simp [Dtype.isNumD] at hnum
  | strD => simp [Dtype.isNumD] at hnum
  | catD => simp [Dtype.isNumD] at hnum
  | objD => simp [Dtype.isNumD] at hnum

theorem ratCells_toNumericInteger (c : Col) :
    (toNumericInteger c).cells.map (Option.map Val.toRat) =
      c.cells.map (Option.map Val.toRat) := by
  by_cases hint : allIntegral c.cells = true
  · cases hw : tryWidths c with
    | some w =>
      rw [toNumericInteger_pos hint hw]
      exact ratCells_map_toIntCell c.cells hint
    | none => rw [toNumericInteger_none hw]
  · rw [toNumericInteger_not_integral (bool_eq_false hint)]

/-- A numeric input column comes out of the pipeline with every cell's
numeric reading (and the null mask) unchanged, under an integer or a
floating-point dtype. -/
theorem optimize_column_numeric {c c' : Col} (hnum : c.dtype.isNumD = true)
    (h : optimize_column c = .ok c') :
    c'.cells.map (Option.map Val.toRat) = c.cells.map (Option.map Val.toRat) ∧
      ((∃ w, c'.dtype = .intD w) ∨ (∃ w, c'.dtype = .floatD w)) := by
  have hc1num : (convert_dtypes c).dtype.isNumD = true := convert_dtypes_numD hnum
  have h2 : stage2 (convert_dtypes c) = .ok (convert_dtypes c) :=
    stage2_not_bool_str (numD_ne_boolD hc1num) (numD_ne_strD hc1num)
  rw [optimize_column_ok_of h2, stage3_num hc1num,
    to_numeric_downcast_eq_integer] at h
  cases h
  constructor
  · calc (convert_dtypes (toNumericInteger (convert_dtypes c))).cells.map
          (Option.map Val.toRat)
        = (toNumericInteger (convert_dtypes c)).cells.map (Option.map Val.toRat) :=
          ratCells_convert_dtypes (tni_numD hc1num)
      _ = (convert_dtypes c).cells.map (Option.map Val.toRat) :=
          ratCells_toNumericInteger _
      _ = c.cells.map (Option.map Val.toRat) := ratCells_convert_dtypes hnum
  · exact numD_cases (convert_dtypes_numD (tni_numD hc1num))

/-! Category lists are strictly sorted, so codes respect lexical order. -/

theorem charsLt_iff : ∀ (as bs : List Char), charsLt as bs = true ↔ as < bs := by
  intro as
  induction as with
  | nil =>
    intro bs
    cases bs with
    | nil =>
      apply iff_of_false (by simp [charsLt])
      intro hlex
      cases hlex
    | cons b bs' => exact iff_of_true rfl List.Lex.nil
  | cons a as' ih =>
    intro bs
    cases bs with
    | nil =>
      apply iff_of_false (by simp [charsLt])
      intro hlex
      cases hlex
    | cons b bs' =>
      simp only [charsLt]
      split_ifs with h1 h2
      · exact iff_of_true rfl (List.Lex.rel h1)
      · apply iff_of_false (by simp)
        intro hlex
        cases hlex with
        | cons htail => exact absurd h2 (lt_irrefl _)
        | rel hr => exact absurd hr (lt_asymm h2)
      · have hab : a = b := le_antisymm (le_of_not_lt h2) (le_of_not_lt h1)
        subst hab
        rw [ih bs']
        constructor
        · exact fun h => List.Lex.cons h
        · intro h
          cases h with
          | cons htail => exact htail
          | rel hr => exact absurd hr h1

theorem strLt_iff {a b : String} : strLt a b = true ↔ a < b :=
  (charsLt_iff a.data b.data).trans String.lt_iff_toList_lt.symm

theorem mem_catInsert {t u : String} {l : List String} :
    u ∈ catInsert t l ↔ u = t ∨ u ∈ l := by
  induction l with
  | nil => simp [catInsert]
  | cons x xs ih =>
    rw [catInsert]
    split_ifs with h1 h2
    · subst h1
      simp only [List.mem_cons]
      try tauto
    · simp only [List.mem_cons]
      try tauto
    · simp only [List.mem_cons, ih]
      try tauto

theorem sorted_catInsert {t : String} {l : List String}
    (h : l.Sorted (· < ·)) : (catInsert t l).Sorted (· < ·) := by
  induction l with
  | nil => simp [catInsert]
  | cons x xs ih =>
    rw [List.sorted_cons] at h
    obtain ⟨hx, hxs⟩ := h
    rw [catInsert]
    split_ifs with h1 h2
    · exact List.sorted_cons.mpr ⟨hx, hxs⟩
    · refine List.sorted_cons.mpr ⟨?_, List.sorted_cons.mpr ⟨hx, hxs⟩⟩
      intro y hy
      rcases List.mem_cons.mp hy with rfl | hy'
      · exact strLt_iff.mp h2
      · exact lt_trans (strLt_iff.mp h2) (hx y hy')
    · have hxt : x < t := by
        rcases lt_trichotomy t x with hlt | heq | hgt
        · exact absurd (strLt_iff.mpr hlt) h2
        · exact absurd heq h1
        · exact hgt
      refine List.sorted_cons.mpr ⟨?_, ih hxs⟩
      intro y hy
      rcases mem_catInsert.mp hy with rfl | hy'
      · exact hxt
      · exact hx y hy'

theorem sorted_categoriesOf (cells : List Cell) :
    (categoriesOf cells).Sorted (· < ·) := by
  rw [categoriesOf]
  generalize ((present cells).filterMap fun v =>
    match v with
    | .s t => some t
    | _ => none) = l
  induction l with
  | nil => simp
  | cons x xs ih => exact sorted_catInsert ih

theorem mem_categoriesOf {cells : List Cell} {t : String}
    (h : some (Val.s t) ∈ cells) : t ∈ categoriesOf cells := by
  rw [categoriesOf]
  have ht : t ∈ (present cells).filterMap fun v =>
      match v with
      | .s u => some u
      | _ => none :=
    List.mem_filterMap.mpr ⟨Val.s t, present_mem h, rfl⟩
  revert ht
  generalize ((present cells).filterMap fun v =>
    match v with
    | .s u => some u
    | _ => none) = l
  intro ht
  induction l with
  | nil => cases ht
  | cons x xs ih =>
    rcases List.mem_cons.mp ht with rfl | hx'
    · exact mem_catInsert.mpr (Or.inl rfl)
    · exact mem_catInsert.mpr (Or.inr (ih hx'))

theorem indexOf_lt_indexOf {l : List String} (hs : l.Sorted (· < ·))
    {a b : String} (ha : a ∈ l) (hb : b ∈ l) (hab : a < b) :
    l.indexOf a < l.indexOf b := by
  induction l with
  | nil => cases ha
  | cons x xs ih =>
    rw [List.sorted_cons] at hs
    obtain ⟨hx, hxs⟩ := hs
    by_cases hax : a = x
    · subst hax
      have hbx : b ≠ a := fun he => absurd (he ▸ hab) (lt_irrefl _)
      rw [List.indexOf_cons_self, List.indexOf_cons_ne _ (ne_of_lt hab)]
      exact Nat.succ_pos _
    · have hamem : a ∈ xs := by
        rcases List.mem_cons.mp ha with rfl | h'
        · exact absurd rfl hax
        · exact h'
      have hbx : b ≠ x := by
        intro he
        subst he
        exact absurd (lt_trans (hx a hamem) hab) (lt_irrefl _)
      have hbmem : b ∈ xs := by
        rcases List.mem_cons.mp hb with rfl | h'
        · exact absurd rfl hbx
        · exact h'
      rw [List.indexOf_cons_ne _ (Ne.symm hax), List.indexOf_cons_ne _ (Ne.symm hbx)]
      exact Nat.succ_lt_succ (ih hxs hamem hbmem)

/-! Dataframe plumbing: `optimizeDf` acts columnwise, preserving names. -/

theorem optimizeDf_length : ∀ {df df' : Df}, optimizeDf df = .ok df' →
    df'.length = df.length := by
  intro df
  induction df with
  | nil =>
    intro df' h
    have he : ([] : Df) = df' := by injection h
    rw [← he]
  | cons p rest ih =>
    intro df' h
    obtain ⟨n, c⟩ := p
    obtain ⟨c2, rest2, _, hor, rfl⟩ := optimizeDf_cons_ok h
    simp [ih hor]

theorem optimizeDf_get : ∀ {df df' : Df}, optimizeDf df = .ok df' →
    ∀ i (hi : i < df.length) (hi' : i < df'.length),
    (df'.get ⟨i, hi'⟩).1 = (df.get ⟨i, hi⟩).1 ∧
      optimize_column (df.get ⟨i, hi⟩).2 = .ok (df'.get ⟨i, hi'⟩).2 := by
  intro df
  induction df with
  | nil =>
    intro df' h i hi hi'
    exact absurd hi (by simp)
  | cons p rest ih =>
    intro df' h i hi hi'
    obtain ⟨n, c⟩ := p
    obtain ⟨c2, rest2, hoc, hor, rfl⟩ := optimizeDf_cons_ok h
    cases i with
    | zero => exact ⟨rfl, hoc⟩
    | succ j =>
      exact ih hor j (Nat.lt_of_succ_lt_succ hi) (Nat.lt_of_succ_lt_succ hi')

theorem wfDf_col {df : Df} (h : wfDf df = true) (i : ℕ) (hi : i < df.length) :
    wfCol (df.get ⟨i, hi⟩).2 = true := by
  have hall := List.all_eq_true.mp (andE_left h)
  exact hall _ (List.get_mem df i hi)

theorem get_congr {α : Type} {A B : List α} (h : A = B) (j : ℕ)
    (hA : j < A.length) (hB : j < B.length) :
    A.get ⟨j, hA⟩ = B.get ⟨j, hB⟩ := by
  subst h
  rfl

theorem get_map_cell (f : Cell → Cell) (l : List Cell) (j : ℕ)
    (h : j < (l.map f).length) (h' : j < l.length) :
    (l.map f).get ⟨j, h⟩ = f (l.get ⟨j, h'⟩) := by
  simp [List.get_eq_getElem, List.getElem_map]

theorem mask_naive_column (c : Col) :
    (naive_column c).cells.map Option.isNone = c.cells.map Option.isNone := by
  cases hd : (convert_dtypes c).dtype with
  | intD w =>
    have h1 : naive_column c = ⟨.floatD (naiveFW (convert_dtypes c).cells),
        (convert_dtypes c).cells.map toFloatCell⟩ := by
      simp only [naive_column, hd]
    rw [h1]
    calc ((convert_dtypes c).cells.map toFloatCell).map Option.isNone
        = (convert_dtypes c).cells.map Option.isNone := mask_map_toFloatCell _
      _ = c.cells.map Option.isNone := mask_convert_dtypes c
  | floatD w =>
    have h1 : naive_column c = ⟨.floatD (naiveFW (convert_dtypes c).cells),
        (convert_dtypes c).cells.map toFloatCell⟩ := by
      simp only [naive_column, hd]
    rw [h1]
    calc ((convert_dtypes c).cells.map toFloatCell).map Option.isNone
        = (convert_dtypes c).cells.map Option.isNone := mask_map_toFloatCell _
      _ = c.cells.map Option.isNone := mask_convert_dtypes c
  | strD =>
    have h1 : naive_column c = ⟨.catD, (convert_dtypes c).cells⟩ := by
      simp only [naive_column, hd]
    rw [h1]
    exact mask_convert_dtypes c
  | boolD =>
    have h1 : naive_column c = convert_dtypes c := by
      simp only [naive_column, hd]
    rw [h1]
    exact mask_convert_dtypes c
  | catD =>
    have h1 : naive_column c = convert_dtypes c := by
      simp only [naive_column, hd]
    rw [h1]
    exact mask_convert_dtypes c
  | objD =>
    have h1 : naive_column c = convert_dtypes c := by
      simp only [naive_column, hd]
    rw [h1]
    exact mask_convert_dtypes c

/-! Claim theorems. -/

/-- C1: for every well-formed dataset and every numeric column, the
full-policy optimizer chooses an integer representation only when it
reproduces every present value exactly (indeed the numeric reading of every
cell is unchanged whatever representation is chosen), and otherwise a
floating-point representation; in particular [1, 2, 3] maps to the narrowest
integer width int8 and [1.5, 2, 3] maps to a floating-point width, never to
a truncating integer cast. -/
theorem claim_C1_integer_exactness :
    (∀ (df df' : Df) (i : ℕ), wfDf df = true → optimizeDf df = .ok df' →
      ∀ (hi : i < df.length) (hi' : i < df'.length),
      (df.get ⟨i, hi⟩).2.dtype.isNumD = true →
        ((df'.get ⟨i, hi'⟩).2.cells.map (Option.map Val.toRat) =
          (df.get ⟨i, hi⟩).2.cells.map (Option.map Val.toRat) ∧
        ((∃ w, (df'.get ⟨i, hi'⟩).2.dtype = .intD w) ∨
          (∃ w, (df'.get ⟨i, hi'⟩).2.dtype = .floatD w)))) ∧
    optimizeDf [("x", ⟨.floatD .f64, [some (.f 1), some (.f 2), some (.f 3)]⟩)] =
      .ok [("x", ⟨.intD .w8, [some (.i 1), some (.i 2), some (.i 3)]⟩)] ∧
    optimizeDf [("x", ⟨.floatD .f64,
        [some (.f (Rat.mk' 3 2)), some (.f 2), some (.f 3)]⟩)] =
      .ok [("x", ⟨.floatD .f64,
        [some (.f (Rat.mk' 3 2)), some (.f 2), some (.f 3)]⟩)] := by
  refine ⟨?_, by rfl, by rfl⟩
  intro df df' i _ hok hi hi' hnum
  exact optimize_column_numeric hnum ((optimizeDf_get hok i hi hi').2)

/-- Witness for C1 at the dataset with the single numeric column [1, 2, 3]. -/
theorem claim_C1_integer_exactness_witness :
    (([("x", (⟨.intD .w8, [some (.i 1), some (.i 2), some (.i 3)]⟩ : Col))] : Df).get
        ⟨0, by decide⟩).2.cells.map (Option.map Val.toRat) =
      (([("x", (⟨.floatD .f64, [some (.f 1), some (.f 2), some (.f 3)]⟩ : Col))] : Df).get
        ⟨0, by decide⟩).2.cells.map (Option.map Val.toRat) ∧
    ((∃ w, (([("x", (⟨.intD .w8, [some (.i 1), some (.i 2), some (.i 3)]⟩ : Col))] : Df).get
        ⟨0, by decide⟩).2.dtype = .intD w) ∨
      (∃ w, (([("x", (⟨.intD .w8, [some (.i 1), some (.i 2), some (.i 3)]⟩ : Col))] : Df).get
        ⟨0, by decide⟩).2.dtype = .floatD w)) :=
  claim_C1_integer_exactness.1
    [("x", ⟨.floatD .f64, [some (.f 1), some (.f 2), some (.f 3)]⟩)]
    [("x", ⟨.intD .w8, [some (.i 1), some (.i 2), some (.i 3)]⟩)]
    0 (by decide) (by rfl) (by decide) (by decide) (by rfl)

/-- C2: the spec claims the optimizer is total and never raises on
well-formed tabular input.  The code refutes this: on the well-formed
dataframe with the boolean column [true, null] it raises (the `astype(int)`
loop cannot convert `pd.NA`), as this evaluation shows. -/
theorem claim_C2_bool_na_raises :
    wfDf [("b", ⟨.boolD, [some (.b true), none]⟩)] = true ∧
    convert_and_optimize_to_numerics
      (.frame [("b", ⟨.boolD, [some (.b true), none]⟩)]) =
      .error .cannotConvertNAToInt :=
  ⟨by decide, by rfl⟩

/-- C3 counterexample: on the well-formed dataset with the string column
["a", null] the full policy succeeds but the null at position 1 becomes the
present sentinel code -1, so the output null mask [false, false] differs
from the input null mask [false, true]. -/
theorem claim_C3_counterexample :
    optimizeDf [("s", ⟨.strD, [some (.s "a"), none]⟩)] =
      .ok [("s", ⟨.intD .w8, [some (.i 0), some (.i (-1))]⟩)] ∧
    ([some (Val.s "a"), none] : List Cell).map Option.isNone = [false, true] ∧
    ([some (Val.i 0), some (Val.i (-1))] : List Cell).map Option.isNone =
      [false, false] ∧
    ([false, true] : List Bool) ≠ [false, false] :=
  ⟨by rfl, rfl, rfl, by decide⟩

/-- C3 amended: null positions are preserved for every column that the
classification pass does not send to categorical coding (and, under the
naive policy, for every column); a string-classified column instead comes
out with no nulls at all, every null having become the -1 sentinel. -/
theorem claim_C3_null_positions_amended :
    (∀ (df df' : Df), optimizeDf df = .ok df' → ∀ (i : ℕ)
      (hi : i < df.length) (hi' : i < df'.length),
      ((convert_dtypes (df.get ⟨i, hi⟩).2).dtype ≠ .strD →
        (df'.get ⟨i, hi'⟩).2.cells.map Option.isNone =
          (df.get ⟨i, hi⟩).2.cells.map Option.isNone) ∧
      ((convert_dtypes (df.get ⟨i, hi⟩).2).dtype = .strD →
        (df'.get ⟨i, hi'⟩).2.cells.all Option.isSome = true)) ∧
    (∀ (df : Df) (i : ℕ) (hi : i < df.length)
      (hi' : i < (naive_dtype_optimize df).length),
      ((naive_dtype_optimize df).get ⟨i, hi'⟩).2.cells.map Option.isNone =
        (df.get ⟨i, hi⟩).2.cells.map Option.isNone) := by
  constructor
  · intro df df' hok i hi hi'
    have hcol := (optimizeDf_get hok i hi hi').2
    exact ⟨fun hns => optimize_column_mask_notstr hns hcol,
      fun hs => optimize_column_str_some hs hcol⟩
  · intro df i hi hi'
    have hget : (naive_dtype_optimize df).get ⟨i, hi'⟩ =
        ((df.get ⟨i, hi⟩).1, naive_column (df.get ⟨i, hi⟩).2) := by
      simp [naive_dtype_optimize, List.get_eq_getElem, List.getElem_map]
    rw [hget]
    exact mask_naive_column _

/-- Witness for the amended C3 at a dataset with a numeric and a string
column. -/
theorem claim_C3_null_positions_amended_witness :
    ((([("x", (⟨.intD .w8, [some (.i 5), none]⟩ : Col))] : Df).get
        ⟨0, by decide⟩).2.cells.map Option.isNone =
      (([("x", (⟨.floatD .f64, [some (.f 5), none]⟩ : Col))] : Df).get
        ⟨0, by decide⟩).2.cells.map Option.isNone) := by
  have h := ((claim_C3_null_positions_amended.1
    [("x", ⟨.floatD .f64, [some (.f 5), none]⟩)]
    [("x", ⟨.intD .w8, [some (.i 5), none]⟩)]
    (by rfl) 0 (by decide) (by decide)).1 (by decide))
  exact h

/-- C4: optimize is idempotent for both policies: re-running the full policy
on its own output returns that output unchanged, and likewise for the naive
policy. -/
theorem claim_C4_idempotent :
    (∀ (df df' : Df), wfDf df = true → optimizeDf df = .ok df' →
      optimizeDf df' = .ok df') ∧
    (∀ df : Df, naive_dtype_optimize (naive_dtype_optimize df) =
      naive_dtype_optimize df) :=
  ⟨fun _ _ _ h => optimizeDf_idem_aux h, naive_dtype_optimize_idem⟩

/-- Witness for C4: the optimized form of a one-column float dataset is a
fixed point. -/
theorem claim_C4_idempotent_witness :
    optimizeDf [("x", ⟨.intD .w8, [some (.i 1), none]⟩)] =
      .ok [("x", ⟨.intD .w8, [some (.i 1), none]⟩)] :=
  claim_C4_idempotent.1 [("x", ⟨.floatD .f64, [some (.f 1), none]⟩)]
    [("x", ⟨.intD .w8, [some (.i 1), none]⟩)] (by decide) (by rfl)

/-- C6: the spec says a boolean column [true, false, null, true] maps to
[1, 0, null, 1] under the full policy.  The code instead raises on that very
input: `astype(int)` cannot convert the null. -/
theorem claim_C6_bool_mapping_crashes :
    wfDf [("b", ⟨.boolD,
      [some (.b true), some (.b false), none, some (.b true)]⟩)] = true ∧
    optimizeDf [("b", ⟨.boolD,
      [some (.b true), some (.b false), none, some (.b true)]⟩)] =
      .error .cannotConvertNAToInt :=
  ⟨by decide, by rfl⟩

/-- C10: the public interface also accepts a bare 1-D array or a series and
behaves as on the corresponding one-column dataframe (a series keeps its
name, an array's column is named "0"); the result is always a dataframe. -/
theorem claim_C10_input_forms :
    (∀ (n : String) (c : Col),
      convert_and_optimize_to_numerics (.series n c) =
        convert_and_optimize_to_numerics (.frame [(n, c)])) ∧
    (∀ (d : Dtype) (cells : List Cell),
      convert_and_optimize_to_numerics (.arr d cells) =
        convert_and_optimize_to_numerics (.frame [("0", ⟨d, cells⟩)])) :=
  ⟨fun _ _ => rfl, fun _ _ => rfl⟩

/-- C5: for every string-classified column under the full policy, equal
input cells always map to the same output cell, every null maps to the
reserved sentinel -1, and every present string maps to a nonnegative integer
code, hence never to the sentinel. -/
theorem claim_C5_categorical_coding :
    ∀ (df df' : Df), wfDf df = true → optimizeDf df = .ok df' →
    ∀ (i : ℕ) (hi : i < df.length) (hi' : i < df'.length),
    (convert_dtypes (df.get ⟨i, hi⟩).2).dtype = .strD →
    (∀ (j k : ℕ) (hj : j < (df.get ⟨i, hi⟩).2.cells.length)
      (hk : k < (df.get ⟨i, hi⟩).2.cells.length)
      (hj' : j < (df'.get ⟨i, hi'⟩).2.cells.length)
      (hk' : k < (df'.get ⟨i, hi'⟩).2.cells.length),
      (df.get ⟨i, hi⟩).2.cells.get ⟨j, hj⟩ = (df.get ⟨i, hi⟩).2.cells.get ⟨k, hk⟩ →
      (df'.get ⟨i, hi'⟩).2.cells.get ⟨j, hj'⟩ =
        (df'.get ⟨i, hi'⟩).2.cells.get ⟨k, hk'⟩) ∧
    (∀ (j : ℕ) (hj : j < (df.get ⟨i, hi⟩).2.cells.length)
      (hj' : j < (df'.get ⟨i, hi'⟩).2.cells.length),
      ((df.get ⟨i, hi⟩).2.cells.get ⟨j, hj⟩ = none →
        (df'.get ⟨i, hi'⟩).2.cells.get ⟨j, hj'⟩ = some (.i (-1))) ∧
      (∀ t : String, (df.get ⟨i, hi⟩).2.cells.get ⟨j, hj⟩ = some (.s t) →
        ∃ m : ℕ, (df'.get ⟨i, hi'⟩).2.cells.get ⟨j, hj'⟩ = some (.i (m : ℤ)) ∧
          (m : ℤ) ≠ -1)) := by
  intro df df' hwf hok i hi hi' hstr
  have hcol := (optimizeDf_get hok i hi hi').2
  obtain ⟨hshape, -⟩ := optimize_column_strD hstr hcol
  rcases hshape with hs | hs
  · refine ⟨?_, ?_⟩
    · intro j k hj hk hj' hk' heq
      rw [get_congr hs j hj' (by rw [← hs]; exact hj'),
        get_map_cell _ _ j _ hj,
        get_congr hs k hk' (by rw [← hs]; exact hk'),
        get_map_cell _ _ k _ hk, heq]
    · intro j hj hj'
      constructor
      · intro hnone
        rw [get_congr hs j hj' (by rw [← hs]; exact hj'),
          get_map_cell _ _ j _ hj, hnone]
        rfl
      · intro t ht
        rw [get_congr hs j hj' (by rw [← hs]; exact hj'),
          get_map_cell _ _ j _ hj, ht]
        exact ⟨(categoriesOf (df.get ⟨i, hi⟩).2.cells).indexOf t, rfl, by omega⟩
  · refine ⟨?_, ?_⟩
    · intro j k hj hk hj' hk' heq
      rw [get_congr hs j hj' (by rw [← hs]; exact hj'),
        get_map_cell toIntCell _ j _ (by simpa using hj),
        get_map_cell _ _ j _ hj,
        get_congr hs k hk' (by rw [← hs]; exact hk'),
        get_map_cell toIntCell _ k _ (by simpa using hk),
        get_map_cell _ _ k _ hk, heq]
    · intro j hj hj'
      constructor
      · intro hnone
        rw [get_congr hs j hj' (by rw [← hs]; exact hj'),
          get_map_cell toIntCell _ j _ (by simpa using hj),
          get_map_cell _ _ j _ hj, hnone]
        exact toIntCell_catCode_none _
      · intro t ht
        rw [get_congr hs j hj' (by rw [← hs]; exact hj'),
          get_map_cell toIntCell _ j _ (by simpa using hj),
          get_map_cell _ _ j _ hj, ht]
        exact ⟨(categoriesOf (df.get ⟨i, hi⟩).2.cells).indexOf t,
          toIntCell_catCode_str _ t, by omega⟩

/-- Witness for C5 at the dataset with the single string column
["a", null]: the null at position 1 maps to the sentinel -1. -/
theorem claim_C5_categorical_coding_witness :
    (([("s", (⟨.intD .w8, [some (.i 0), some (.i (-1))]⟩ : Col))] : Df).get
        ⟨0, by decide⟩).2.cells.get ⟨1, by decide⟩ = some (.i (-1)) :=
  ((claim_C5_categorical_coding
    [("s", ⟨.strD, [some (.s "a"), none]⟩)]
    [("s", ⟨.intD .w8, [some (.i 0), some (.i (-1))]⟩)]
    (by decide) (by rfl) 0 (by decide) (by decide) (by rfl)).2
    1 (by decide) (by decide)).1 (by rfl)

/-- C7 (naive policy, modelled from the spec): the program offers a naive
variant alongside the full policy; it acts columnwise, numeric columns
always become a floating-point width (never an integer width), and string
columns become a category-labelled column retaining the original labels. -/
theorem claim_C7_naive_policy :
    (∀ (df : Df) (i : ℕ) (hi : i < df.length)
      (hi' : i < (naive_dtype_optimize df).length),
      (naive_dtype_optimize df).get ⟨i, hi'⟩ =
        ((df.get ⟨i, hi⟩).1, naive_column (df.get ⟨i, hi⟩).2)) ∧
    (∀ c : Col, (convert_dtypes c).dtype.isNumD = true →
      naive_column c = ⟨.floatD (naiveFW (convert_dtypes c).cells),
        (convert_dtypes c).cells.map toFloatCell⟩) ∧
    (∀ c : Col, (convert_dtypes c).dtype = .strD →
      naive_column c = ⟨.catD, c.cells⟩) ∧
    (∀ (c : Col) (w : IW), (naive_column c).dtype ≠ .intD w) := by
  refine ⟨?_, ?_, ?_, ?_⟩
  · intro df i hi hi'
    simp [naive_dtype_optimize, List.get_eq_getElem, List.getElem_map]
  · intro c hnum
    rcases numD_cases hnum with ⟨w, hw⟩ | ⟨w, hw⟩ <;> simp only [naive_column, hw]
  · intro c hs
    have hc := convert_dtypes_strD_cells hs
    simp only [naive_column, hs, hc]
  · intro c w
    cases hd : (convert_dtypes c).dtype <;> simp only [naive_column, hd] <;>
      simp [hd]

/-- Witness for C7 at a one-value float column and a one-value string
column. -/
theorem claim_C7_naive_policy_witness :
    naive_column ⟨.floatD .f64, [some (.f 1)]⟩ =
      ⟨.floatD (naiveFW (convert_dtypes ⟨.floatD .f64, [some (.f 1)]⟩).cells),
        (convert_dtypes ⟨.floatD .f64, [some (.f 1)]⟩).cells.map toFloatCell⟩ ∧
    naive_column ⟨.strD, [some (.s "a"), none]⟩ =
      ⟨.catD, [some (.s "a"), none]⟩ :=
  ⟨claim_C7_naive_policy.2.1 ⟨.floatD .f64, [some (.f 1)]⟩ (by rfl),
    claim_C7_naive_policy.2.2.1 ⟨.strD, [some (.s "a"), none]⟩ (by rfl)⟩

/-! The heap-level run: the input dataframe object is never written. -/

theorem heapGet_append_lt (h : List Df) (d : Df) (r : ℕ) (hr : r < h.length) :
    heapGet (h ++ [d]) r = heapGet h r := by
  rw [heapGet, heapGet, List.getElem?_append_left hr]

theorem heapGet_set_ne (h : List Df) (i : ℕ) (d : Df) (r : ℕ) (hne : i ≠ r) :
    heapGet (h.set i d) r = heapGet h r := by
  rw [heapGet, heapGet, List.getElem?_set_ne hne]

/-- C8: the input dataframe object is never mutated — after the run the heap
still holds the original value at the input's address — and the returned
dataframe is a distinct object (a fresh address). -/
theorem claim_C8_no_mutation :
    ∀ (h : List Df) (r : ℕ) (h' : List Df) (r' : ℕ), r < h.length →
      optimizeOnHeap h r = .ok (h', r') →
      heapGet h' r = heapGet h r ∧ r' ≠ r := by
  intro h r h' r' hr hok
  rw [optimizeOnHeap] at hok
  cases hb : boolLoopDf (heapGet
      ((h ++ [copyDeep (heapGet h r)]) ++
        [convertDtypesDf (heapGet (h ++ [copyDeep (heapGet h r)]) h.length)])
      (h ++ [copyDeep (heapGet h r)]).length) with
  | error e =>
    rw [hb] at hok
    exact absurd hok (by simp)
  | ok d2 =>
    rw [hb] at hok
    injection hok with hok'
    injection hok' with hh hr'
    have hlen1 : r < (h ++ [copyDeep (heapGet h r)]).length := by
      simp
      omega
    have hlen2 : r <
        ((h ++ [copyDeep (heapGet h r)]) ++
          [convertDtypesDf (heapGet (h ++ [copyDeep (heapGet h r)]) h.length)]).length := by
      simp
      omega
    have hne : (h ++ [copyDeep (heapGet h r)]).length ≠ r := by
      simp
      omega
    constructor
    · rw [← hh]
      rw [heapGet_append_lt _ _ r (by simp [List.length_set]; omega),
        heapGet_set_ne _ _ _ r hne, heapGet_set_ne _ _ _ r hne,
        heapGet_set_ne _ _ _ r hne,
        heapGet_append_lt _ _ r hlen1, heapGet_append_lt _ _ r hr]
    · rw [← hr']
      simp [List.length_set]
      omega

/-- Witness for C8: a one-object heap; the run leaves address 0 intact and
returns the fresh address 3. -/
theorem claim_C8_no_mutation_witness :
    heapGet [[("x", (⟨.intD .w8, [some (.i 1)]⟩ : Col))],
        [("x", (⟨.intD .w8, [some (.i 1)]⟩ : Col))],
        [("x", (⟨.intD .w8, [some (.i 1)]⟩ : Col))],
        [("x", (⟨.intD .w8, [some (.i 1)]⟩ : Col))]] 0 =
      heapGet [[("x", (⟨.intD .w8, [some (.i 1)]⟩ : Col))]] 0 ∧ (3 : ℕ) ≠ 0 :=
  claim_C8_no_mutation [[("x", ⟨.intD .w8, [some (.i 1)]⟩)]] 0
    [[("x", ⟨.intD .w8, [some (.i 1)]⟩)],
      [("x", ⟨.intD .w8, [some (.i 1)]⟩)],
      [("x", ⟨.intD .w8, [some (.i 1)]⟩)],
      [("x", ⟨.intD .w8, [some (.i 1)]⟩)]] 3 (by decide) (by rfl)

/-- C9: categorical codes are assigned in sorted lexical order of the
distinct strings — a string sorting strictly before another receives a
strictly smaller code — and ["a","b","a","c"] yields the codes
[0, 1, 0, 2]. -/
theorem claim_C9_codes_sorted :
    (∀ (df df' : Df), optimizeDf df = .ok df' →
      ∀ (i : ℕ) (hi : i < df.length) (hi' : i < df'.length),
      (convert_dtypes (df.get ⟨i, hi⟩).2).dtype = .strD →
      ∀ (j k : ℕ) (hj : j < (df.get ⟨i, hi⟩).2.cells.length)
        (hk : k < (df.get ⟨i, hi⟩).2.cells.length)
        (hj' : j < (df'.get ⟨i, hi'⟩).2.cells.length)
        (hk' : k < (df'.get ⟨i, hi'⟩).2.cells.length)
        (t1 t2 : String),
        (df.get ⟨i, hi⟩).2.cells.get ⟨j, hj⟩ = some (.s t1) →
        (df.get ⟨i, hi⟩).2.cells.get ⟨k, hk⟩ = some (.s t2) →
        t1 < t2 →
        ∃ m1 m2 : ℕ,
          (df'.get ⟨i, hi'⟩).2.cells.get ⟨j, hj'⟩ = some (.i (m1 : ℤ)) ∧
          (df'.get ⟨i, hi'⟩).2.cells.get ⟨k, hk'⟩ = some (.i (m2 : ℤ)) ∧
          m1 < m2) ∧
    optimizeDf [("s", ⟨.strD,
        [some (.s "a"), some (.s "b"), some (.s "a"), some (.s "c")]⟩)] =
      .ok [("s", ⟨.intD .w8,
        [some (.i 0), some (.i 1), some (.i 0), some (.i 2)]⟩)] := by
  refine ⟨?_, by rfl⟩
  intro df df' hok i hi hi' hstr j k hj hk hj' hk' t1 t2 ht1 ht2 hlt
  have hcol := (optimizeDf_get hok i hi hi').2
  obtain ⟨hshape, -⟩ := optimize_column_strD hstr hcol
  have hm1 : t1 ∈ categoriesOf (df.get ⟨i, hi⟩).2.cells := by
    apply mem_categoriesOf
    rw [← ht1]
    exact List.get_mem _ _ _
  have hm2 : t2 ∈ categoriesOf (df.get ⟨i, hi⟩).2.cells := by
    apply mem_categoriesOf
    rw [← ht2]
    exact List.get_mem _ _ _
  have hmono := indexOf_lt_indexOf
    (sorted_categoriesOf (df.get ⟨i, hi⟩).2.cells) hm1 hm2 hlt
  refine ⟨(categoriesOf (df.get ⟨i, hi⟩).2.cells).indexOf t1,
    (categoriesOf (df.get ⟨i, hi⟩).2.cells).indexOf t2, ?_, ?_, hmono⟩
  · rcases hshape with hs | hs
    · rw [get_congr hs j hj' (by rw [← hs]; exact hj'),
        get_map_cell _ _ j _ hj, ht1]
      rfl
    · rw [get_congr hs j hj' (by rw [← hs]; exact hj'),
        get_map_cell toIntCell _ j _ (by simpa using hj),
        get_map_cell _ _ j _ hj, ht1]
      exact toIntCell_catCode_str _ t1
  · rcases hshape with hs | hs
    · rw [get_congr hs k hk' (by rw [← hs]; exact hk'),
        get_map_cell _ _ k _ hk, ht2]
      rfl
    · rw [get_congr hs k hk' (by rw [← hs]; exact hk'),
        get_map_cell toIntCell _ k _ (by simpa using hk),
        get_map_cell _ _ k _ hk, ht2]
      exact toIntCell_catCode_str _ t2

/-- Witness for C9 at ["a","b","a","c"]: position 0 ("a") receives a
strictly smaller code than position 1 ("b"). -/
theorem claim_C9_codes_sorted_witness :
    ∃ m1 m2 : ℕ,
      (([("s", (⟨.intD .w8,
          [some (.i 0), some (.i 1), some (.i 0), some (.i 2)]⟩ : Col))] : Df).get
        ⟨0, by decide⟩).2.cells.get ⟨0, by decide⟩ = some (.i (m1 : ℤ)) ∧
      (([("s", (⟨.intD .w8,
          [some (.i 0), some (.i 1), some (.i 0), some (.i 2)]⟩ : Col))] : Df).get
        ⟨0, by decide⟩).2.cells.get ⟨1, by decide⟩ = some (.i (m2 : ℤ)) ∧
      m1 < m2 :=
  claim_C9_codes_sorted.1
    [("s", ⟨.strD, [some (.s "a"), some (.s "b"), some (.s "a"), some (.s "c")]⟩)]
    [("s", ⟨.intD .w8, [some (.i 0), some (.i 1), some (.i 0), some (.i 2)]⟩)]
    (by rfl) 0 (by decide) (by decide) (by rfl) 0 1 (by decide) (by decide)
    (by decide) (by decide) "a" "b" (by rfl) (by rfl) (strLt_iff.mp (by rfl))

end DtypeOpt
